import Mathlib

/-!
Verification development for the XboxBiosTool layered BIOS image codec.

The constants below are transcribed from src/inc/Bios.h.  The codec
operations (load, build, the preldr decoder, the 2BL validator, the key
derivation and the unload path) are declared in that header but their
implementations are not part of the tree, so each operation is modelled
from the specification; every such definition carries a doc comment
stating exactly what is modelled.
-/

set_option maxHeartbeats 1000000

set_option maxRecDepth 8000

namespace XboxBiosTool

/-! ## Constants from src/inc/Bios.h -/

def MIN_BIOS_SIZE : Nat := 0x40000

def MAX_BIOS_SIZE : Nat := 0x100000

def KD_DELAY_FLAG : Nat := 0x80000000

def ROM_DIGEST_SIZE : Nat := 0x100

def PRELDR_BLOCK_SIZE : Nat := 0x2A00

def PRELDR_PARAMS_SIZE : Nat := 0x80

def PRELDR_SIZE : Nat := PRELDR_BLOCK_SIZE - ROM_DIGEST_SIZE - PRELDR_PARAMS_SIZE

def PRELDR_NONCE_SIZE : Nat := 0x10

/-- Modelled from the spec: `MCPX_BLOCK_SIZE` lives in the absent header
Mcpx.h.  Its value 0x200 is pinned by the comments in src/inc/Bios.h: the
comment on `PRELDR_REAL_BASE` gives the address FFFF.D400, which forces
`0xFFFFFFFF - MCPX_BLOCK_SIZE - PRELDR_BLOCK_SIZE + 1 = 0xFFFFD400`,
hence `MCPX_BLOCK_SIZE = 0x200`. -/
def MCPX_BLOCK_SIZE : Nat := 0x200

def PRELDR_REAL_BASE : Nat := 0xFFFFFFFF - MCPX_BLOCK_SIZE - PRELDR_BLOCK_SIZE + 1

def PRELDR_REAL_END : Nat := PRELDR_REAL_BASE + PRELDR_SIZE

def BLDR_BLOCK_SIZE : Nat := 0x6000

def BLDR_RELOC : Nat := 0x00400000

def BLDR_BASE : Nat := 0x00090000

def BLDR_REAL_BASE : Nat := 0xFFFFFFFF - MCPX_BLOCK_SIZE - BLDR_BLOCK_SIZE + 1

def BOOT_SIGNATURE : Nat := 2018801994

def BIOS_LOAD_STATUS_SUCCESS : Nat := 0

def BIOS_LOAD_STATUS_INVALID_BLDR : Nat := 1

def BIOS_LOAD_STATUS_FAILED : Nat := 2

def PRELDR_STATUS_BLDR_DECRYPTED : Nat := 0

def PRELDR_STATUS_FOUND : Nat := 1

def PRELDR_STATUS_NOT_FOUND : Nat := 2

def PRELDR_STATUS_ERROR : Nat := 3

def SHA1_DIGEST_LEN : Nat := 20

/-! ## Byte-buffer primitives

An image is a `List Nat` of bytes.  `writeAt` splices a byte string into a
buffer at an offset; `extract` reads a region out of a buffer.  These are
the shallow embedding of the pointer arithmetic the codec performs on its
single owned image buffer. -/

/-- Splice `src` into `buf` starting at offset `off` (the bytes of `buf`
outside the written window are kept). -/
def writeAt (buf : List Nat) (off : Nat) (src : List Nat) : List Nat :=
  buf.take off ++ src ++ buf.drop (off + src.length)

/-- Read `len` bytes of `buf` starting at offset `off`. -/
def extract (buf : List Nat) (off len : Nat) : List Nat :=
  (buf.drop off).take len

/-- Little-endian 32-bit value of the first four bytes of a byte string. -/
def le32 (b : List Nat) : Nat :=
  b.getD 0 0 + 256 * b.getD 1 0 + 65536 * b.getD 2 0 + 16777216 * b.getD 3 0

/-- Four little-endian bytes of a 32-bit value. -/
def le32Bytes (n : Nat) : List Nat :=
  [n % 256, n / 256 % 256, n / 65536 % 256, n / 16777216 % 256]

/-! ## RC4 symmetric stream cipher

Modelled from the spec: the primitive symmetric cipher is an external
collaborator described as an RC4-style stream cipher whose only property
the codec relies on is the decrypt/encrypt involution
`symmetric(symmetric(B, k), k) == B`.  We embed the standard RC4
key-scheduling and output generation over byte lists. -/

/-- Swap the entries at positions `i` and `j` of a byte list. -/
def rc4Swap (s : List Nat) (i j : Nat) : List Nat :=
  let a := s.getD i 0
  let b := s.getD j 0
  (s.set i b).set j a

/-- One step of the RC4 key schedule: state is the permutation list and
the accumulator `j`. -/
def ksaStep (key : List Nat) (st : List Nat × Nat) (i : Nat) : List Nat × Nat :=
  let s := st.1
  let j := (st.2 + s.getD i 0 + key.getD (i % key.length) 0) % 256
  (rc4Swap s i j, j)

/-- RC4 key schedule: permute `[0, …, 255]` under the key. -/
def ksa (key : List Nat) : List Nat :=
  ((List.range 256).foldl (ksaStep key) (List.range 256, 0)).1

/-- One step of RC4 output generation: state is `(S, i, j)`, result is
the next keystream byte and the successor state. -/
def prgaStep (st : List Nat × Nat × Nat) : Nat × (List Nat × Nat × Nat) :=
  let s := st.1
  let i := (st.2.1 + 1) % 256
  let j := (st.2.2 + s.getD i 0) % 256
  let s2 := rc4Swap s i j
  (s2.getD ((s2.getD i 0 + s2.getD j 0) % 256) 0, (s2, i, j))

/-- The first `n` RC4 keystream bytes from a generator state. -/
def keystream : Nat → List Nat × Nat × Nat → List Nat
  | 0, _ => []
  | n + 1, st =>
      let r := prgaStep st
      r.1 :: keystream n r.2

/-- RC4 applied to a byte string: XOR with the keystream of the key. -/
def rc4 (key data : List Nat) : List Nat :=
  List.zipWith Nat.xor data (keystream data.length (ksa key, 0, 0))

/-! ## SHA-1

Modelled from the spec: SHA-1 is an external collaborator primitive
(assumed correct); we embed the standard algorithm over byte lists with
32-bit words represented as `Nat` reduced mod `2 ^ 32`. -/

/-- Reduce to a 32-bit word. -/
def w32 (n : Nat) : Nat := n % 4294967296

/-- Rotate a 32-bit word left by `n` bits. -/
def rotl32 (n x : Nat) : Nat := w32 ((x <<< n) ||| (x >>> (32 - n)))

/-- Big-endian byte string of length `k` for a value. -/
def beBytes : Nat → Nat → List Nat
  | 0, _ => []
  | k + 1, n => beBytes k (n / 256) ++ [n % 256]

/-- Big-endian 32-bit word value of a byte string. -/
def beWord (b : List Nat) : Nat := b.foldl (fun a x => a * 256 + x) 0

/-- SHA-1 message padding: append `0x80`, zero padding and the 64-bit
big-endian bit length, reaching a multiple of 64 bytes. -/
def sha1Pad (msg : List Nat) : List Nat :=
  let l := msg.length
  msg ++ 128 :: List.replicate ((64 - (l + 9) % 64) % 64) 0 ++ beBytes 8 (8 * l)

/-- Split a byte string into 64-byte chunks. -/
def chunks64 : List Nat → List (List Nat)
  | [] => []
  | x :: xs => ((x :: xs).take 64) :: chunks64 ((x :: xs).drop 64)
  termination_by l => l.length
  decreasing_by simp; omega

/-- The sixteen big-endian 32-bit words of a 64-byte chunk. -/
def chunkWords (chunk : List Nat) : List Nat :=
  (List.range 16).map (fun i => beWord (extract chunk (4 * i) 4))

/-- Extend sixteen message words to the eighty-word SHA-1 schedule. -/
def sha1Schedule (ws : List Nat) : List Nat :=
  (List.range 80).foldl
    (fun acc t =>
      if t < 16 then acc ++ [ws.getD t 0]
      else
        acc ++ [rotl32 1 ((acc.getD (t - 3) 0 ^^^ acc.getD (t - 8) 0) ^^^
          (acc.getD (t - 14) 0 ^^^ acc.getD (t - 16) 0))]) []

/-- The SHA-1 round function and round constant for round `t`. -/
def sha1F (t b c d : Nat) : Nat × Nat :=
  if t < 20 then ((b &&& c) ||| ((b ^^^ 4294967295) &&& d), 1518500249)
  else if t < 40 then ((b ^^^ c) ^^^ d, 1859775393)
  else if t < 60 then ((b &&& c) ||| ((b &&& d) ||| (c &&& d)), 2400959708)
  else ((b ^^^ c) ^^^ d, 3395469782)

/-- One SHA-1 compression round. -/
def sha1Round (st : Nat × Nat × Nat × Nat × Nat) (tw : Nat × Nat) :
    Nat × Nat × Nat × Nat × Nat :=
  let a := st.1
  let b := st.2.1
  let c := st.2.2.1
  let d := st.2.2.2.1
  let e := st.2.2.2.2
  let fk := sha1F tw.1 b c d
  (w32 (rotl32 5 a + fk.1 + e + fk.2 + tw.2), a, rotl32 30 b, c, d)

/-- Process one 64-byte chunk of the message. -/
def sha1Chunk (h : Nat × Nat × Nat × Nat × Nat) (chunk : List Nat) :
    Nat × Nat × Nat × Nat × Nat :=
  let ws := sha1Schedule (chunkWords chunk)
  let r := (((List.range 80).zip ws).foldl sha1Round h)
  (w32 (h.1 + r.1), w32 (h.2.1 + r.2.1), w32 (h.2.2.1 + r.2.2.1),
    w32 (h.2.2.2.1 + r.2.2.2.1), w32 (h.2.2.2.2 + r.2.2.2.2))

/-- SHA-1 digest of a byte string, as twenty bytes. -/
def sha1 (msg : List Nat) : List Nat :=
  let h := (chunks64 (sha1Pad msg)).foldl sha1Chunk
    (1732584193, 4023233417, 2562383102, 271733878, 3285377520)
  beBytes 4 h.1 ++ beBytes 4 h.2.1 ++ beBytes 4 h.2.2.1 ++
    beBytes 4 h.2.2.2.1 ++ beBytes 4 h.2.2.2.2

/-! ## Layout resolver

The region offsets follow the source constants: `PRELDR_REAL_BASE` and
`BLDR_REAL_BASE` in src/inc/Bios.h give the ROM addresses of the preldr
and 2BL blocks in the CPU window ending at 0xFFFFFFFF; an in-file offset
is the distance of that address from the top of the window, measured from
the end of the file. -/

/-- Offset of the MCPX block in an image of the given size. -/
def mcpxOffset (size : Nat) : Nat := size - MCPX_BLOCK_SIZE

/-- Offset of the preldr block: the source constant `PRELDR_REAL_BASE`
translated from the CPU window to a file offset. -/
def preldrOffset (size : Nat) : Nat := size - (0x100000000 - PRELDR_REAL_BASE)

/-- Offset of the 2BL block: the source constant `BLDR_REAL_BASE`
translated from the CPU window to a file offset. -/
def bldrOffset (size : Nat) : Nat := size - (0x100000000 - BLDR_REAL_BASE)

/-- Offset of the preldr parameter struct inside the image. -/
def preldrParamsOffset (size : Nat) : Nat := preldrOffset size + PRELDR_SIZE

/-- Offset of the ROM digest region inside the image. -/
def romDigestOffset (size : Nat) : Nat :=
  preldrParamsOffset size + PRELDR_PARAMS_SIZE

/-- Space available below the 2BL block for the kernel and its data
(the `available_space` field of the `Bios` class). -/
def availableSpace (size : Nat) : Nat := size - BLDR_BLOCK_SIZE - MCPX_BLOCK_SIZE

/-- The part of the 2BL block that is not overlaid by the preldr block:
the 2BL and preldr blocks both end at the MCPX base, so the top
`PRELDR_BLOCK_SIZE` bytes of the 2BL block are the preldr block. -/
def BLDR_CODE_SIZE : Nat := BLDR_BLOCK_SIZE - PRELDR_BLOCK_SIZE

/-- The offsets computed when a BIOS is loaded (`Bios::getOffsets`),
derived from the source base-address constants. -/
structure BiosOffsets where
  mcpx : Nat
  preldr : Nat
  bldr : Nat
  preldr_params : Nat
  rom_digest : Nat
deriving Repr, DecidableEq

/-- Modelled from the spec: `Bios::getOffsets` is declared in
src/inc/Bios.h without a body; the offsets it computes are forced by the
source constants `PRELDR_REAL_BASE` and `BLDR_REAL_BASE`. -/
def getOffsets (size : Nat) : BiosOffsets :=
  { mcpx := mcpxOffset size
    preldr := preldrOffset size
    bldr := bldrOffset size
    preldr_params := preldrParamsOffset size
    rom_digest := romDigestOffset size }

/-- Modelled from the spec: `bios_check_size` is declared in
src/inc/Bios.h without a body; the spec fixes the accepted sizes as the
set of 256 KiB, 512 KiB and 1 MiB, in accord with the source constants
`MIN_BIOS_SIZE = 0x40000` and `MAX_BIOS_SIZE = 0x100000`.  Returns 0 on
success, nonzero on failure. -/
def bios_check_size (size : Nat) : Nat :=
  if size = 0x40000 ∨ size = 0x80000 ∨ size = 0x100000 then 0 else 1

/-! ## Data model

The packed on-disk structs live in the absent header bldr.h; the fields
below are the ones the spec names (boot-params signature, sizes, kernel
offset, kernel key word and declared ROM size), serialized little-endian
without padding. -/

/-- Modelled from the spec: the `BOOT_PARAMS` struct of the absent header
bldr.h, reduced to the fields the spec names. -/
@[ext]
structure BOOT_PARAMS where
  signature : Nat
  bldr_size : Nat
  krnl_data_size : Nat
  init_tbl_size : Nat
  kernel_offset : Nat
  kernel_key_word : Nat
  romsize : Nat
deriving Repr, DecidableEq

/-- Byte size of the serialized boot-params block (seven 32-bit words). -/
def BOOT_PARAMS_SIZE : Nat := 28

/-- Modelled from the spec: the boot params live at a fixed offset from
the 2BL base (spec, derived pointers); we place them at the end of the
non-overlaid part of the 2BL block. -/
def BOOT_PARAMS_OFF : Nat := BLDR_CODE_SIZE - BOOT_PARAMS_SIZE

/-- Modelled from the spec: the 2BL keys struct (kernel key followed by
kernel-data key, sixteen bytes each) sits at a fixed offset from the 2BL
base, directly below the boot params in this model. -/
def KEYS_OFF : Nat := BOOT_PARAMS_OFF - 32

/-- Modelled from the spec: the slot that receives the boot-from-media
key when the `bfm` build flag is set. -/
def BFM_KEY_OFF : Nat := KEYS_OFF - 16

/-- Serialize boot params to little-endian bytes. -/
def serializeBootParams (bp : BOOT_PARAMS) : List Nat :=
  le32Bytes bp.signature ++ le32Bytes bp.bldr_size ++
    le32Bytes bp.krnl_data_size ++ le32Bytes bp.init_tbl_size ++
    le32Bytes bp.kernel_offset ++ le32Bytes bp.kernel_key_word ++
    le32Bytes bp.romsize

/-- Parse boot params from little-endian bytes. -/
def parseBootParams (b : List Nat) : BOOT_PARAMS :=
  { signature := le32 (extract b 0 4)
    bldr_size := le32 (extract b 4 4)
    krnl_data_size := le32 (extract b 8 4)
    init_tbl_size := le32 (extract b 12 4)
    kernel_offset := le32 (extract b 16 4)
    kernel_key_word := le32 (extract b 20 4)
    romsize := le32 (extract b 24 4) }

/-- Every boot-params field fits in 32 bits. -/
def BootParamsBounded (bp : BOOT_PARAMS) : Prop :=
  bp.signature < 4294967296 ∧ bp.bldr_size < 4294967296 ∧
    bp.krnl_data_size < 4294967296 ∧ bp.init_tbl_size < 4294967296 ∧
    bp.kernel_offset < 4294967296 ∧ bp.kernel_key_word < 4294967296 ∧
    bp.romsize < 4294967296

instance (bp : BOOT_PARAMS) : Decidable (BootParamsBounded bp) :=
  inferInstanceAs (Decidable (_ ∧ _))

/-- The `BIOS_LOAD_PARAMS` struct of src/inc/Bios.h; the `mcpx` ROM
pointer is modelled by the secret boot key blob it supplies (empty when
no MCPX ROM is given, as for an MCPX v1.0 BIOS which has no preldr). -/
structure BIOS_LOAD_PARAMS where
  romsize : Nat
  bldr_key : List Nat
  kernel_key : List Nat
  mcpx_sbkey : List Nat
  enc_bldr : Bool
  enc_kernel : Bool
  restore_boot_params : Bool
deriving Repr, DecidableEq

/-- The `BIOS_BUILD_PARAMS` struct of src/inc/Bios.h: component buffers
(their sizes are the list lengths) and build flags. -/
structure BIOS_BUILD_PARAMS where
  init_tbl : List Nat
  preldr : List Nat
  bldr : List Nat
  compressed_kernel : List Nat
  kernel_data : List Nat
  eeprom_key : List Nat
  cert_key : List Nat
  bfm : Bool
  hackinittbl : Bool
  hacksignature : Bool
  nobootparams : Bool
  zero_kernel_key : Bool
  fix2bldigest : Bool
deriving Repr, DecidableEq

/-- The decoded fields a successful `load` exposes. -/
structure DecodedBios where
  bios_status : Nat
  preldr_status : Nat
  init_tbl : List Nat
  preldr : List Nat
  bldr : List Nat
  boot_params : BOOT_PARAMS
  keys : List Nat
  kernel : List Nat
  kernel_data : List Nat
  rom_digest : List Nat
  bldr_encryption_state : Bool
  kernel_encryption_state : Bool
deriving Repr, DecidableEq

/-- The all-zero boot params. -/
def emptyBootParams : BOOT_PARAMS :=
  { signature := 0, bldr_size := 0, krnl_data_size := 0, init_tbl_size := 0
    kernel_offset := 0, kernel_key_word := 0, romsize := 0 }

/-- The decode result of a rejected image. -/
def failedDecode : DecodedBios :=
  { bios_status := BIOS_LOAD_STATUS_FAILED
    preldr_status := PRELDR_STATUS_NOT_FOUND
    init_tbl := [], preldr := [], bldr := []
    boot_params := emptyBootParams
    keys := [], kernel := [], kernel_data := [], rom_digest := []
    bldr_encryption_state := true, kernel_encryption_state := true }

/-! ## Codec operations, modelled from the spec -/

/-- Modelled from the spec: `Bios::validateBldrBootParams` is declared in
src/inc/Bios.h without a body.  Rejects (nonzero) when the signature is
wrong, either size is zero, the sizes overflow the available space, or
the declared ROM size is not an allowed size.  Returns 0 on success. -/
def validateBldrBootParams (bp : BOOT_PARAMS) (size : Nat) : Nat :=
  if bp.signature ≠ BOOT_SIGNATURE then 1
  else if bp.bldr_size = 0 then 1
  else if bp.krnl_data_size = 0 then 1
  else if availableSpace size < bp.bldr_size + bp.krnl_data_size then 1
  else if bios_check_size bp.romsize ≠ 0 then 1
  else 0

/-- Modelled from the spec: `Bios::preldrCreateKey` is declared in
src/inc/Bios.h without a body; the spec gives the derivation as
SHA-1(SHA-1(secret_boot_key ‖ nonce) ‖ nonce). -/
def preldrCreateKey (sbkey nonce : List Nat) : List Nat :=
  sha1 (sha1 (sbkey ++ nonce) ++ nonce)

/-- Apply the symmetric cipher in place to the region of `len` bytes at
offset `off` of the image. -/
def symmetricEncDecRegion (img : List Nat) (off len : Nat) (key : List Nat) :
    List Nat :=
  writeAt img off (rc4 key (extract img off len))

/-- Modelled from the spec: `Bios::symmetricEncDecBldr` is declared in
src/inc/Bios.h without a body; it runs the symmetric cipher over the 2BL
block (the part not overlaid by the preldr block). -/
def symmetricEncDecBldr (img : List Nat) (size : Nat) (key : List Nat) :
    List Nat :=
  symmetricEncDecRegion img (bldrOffset size) BLDR_CODE_SIZE key

/-- Modelled from the spec: the kernel key used for kernel decryption.
When `KD_DELAY_FLAG` is set in the boot-params kernel-key word the
externally supplied `params.kernel_key` is used and the in-image key
field is ignored; otherwise the in-image key is used. -/
def kernelEncDecKey (bp : BOOT_PARAMS) (p : BIOS_LOAD_PARAMS)
    (inImageKey : List Nat) : List Nat :=
  if bp.kernel_key_word &&& KD_DELAY_FLAG ≠ 0 then p.kernel_key else inImageKey

/-- Modelled from the spec: `Bios::symmetricEncDecKernel` is declared in
src/inc/Bios.h without a body; it runs the symmetric cipher over the
compressed-kernel region with the effective kernel key, and over the
kernel data region with its own key, the lengths drawn from the boot
params. -/
def symmetricEncDecKernel (img : List Nat) (bp : BOOT_PARAMS)
    (p : BIOS_LOAD_PARAMS) (inImageKey inImageDataKey : List Nat) : List Nat :=
  symmetricEncDecRegion
    (symmetricEncDecRegion img bp.kernel_offset bp.bldr_size
      (kernelEncDecKey bp p inImageKey))
    (bp.kernel_offset + bp.bldr_size) bp.krnl_data_size inImageDataKey

/-- The 16-byte nonce in the preldr parameter struct. -/
def preldrNonce (img : List Nat) : List Nat :=
  extract img (preldrParamsOffset img.length) PRELDR_NONCE_SIZE

/-- The 32-bit jump offset read at the start of the preldr block. -/
def preldrJmpOffset (img : List Nat) : Nat :=
  le32 (extract img (preldrOffset img.length) 4)

/-- Modelled from the spec: the size of the preldr pointer block
(`PRELDR_PTR_BLOCK` of the absent header bldr.h). -/
def PRELDR_PTR_BLOCK_SIZE : Nat := 16

/-- Modelled from the spec: the size of the preldr function block
(`PRELDR_FUNC_BLOCK` of the absent header bldr.h). -/
def PRELDR_FUNC_BLOCK_SIZE : Nat := 16

/-- Round up to the next 16-byte-aligned address. -/
def align16 (n : Nat) : Nat := (n + 15) / 16 * 16

/-- Modelled from the spec: `Bios::preldrValidateAndDecryptBldr` is
declared in src/inc/Bios.h without a body.  With no MCPX secret boot key
no preldr is expected (MCPX v1.0); a zero jump offset, or a pointer
block target outside the preldr code region, means no preldr is present;
an out-of-bounds pointer or function block is an error and nothing is
mutated.  Otherwise the bldr key is derived from the secret boot key and
the nonce, the 2BL is decrypted, and the boot-params signature decides
between `BLDR_DECRYPTED` (2BL left plaintext) and `FOUND` (2BL
re-encrypted to restore its prior bytes).  The public-key recovery step
is elided: the spec does not locate the embedded public key.  Returns the
preldr status and the possibly-updated image. -/
def preldrValidateAndDecryptBldr (img : List Nat) (p : BIOS_LOAD_PARAMS) :
    Nat × List Nat :=
  if p.mcpx_sbkey.length = 0 then (PRELDR_STATUS_NOT_FOUND, img)
  else if preldrJmpOffset img = 0 then (PRELDR_STATUS_NOT_FOUND, img)
  else if PRELDR_REAL_END ≤ PRELDR_REAL_BASE + preldrJmpOffset img then
    (PRELDR_STATUS_NOT_FOUND, img)
  else if PRELDR_REAL_END <
      align16 (PRELDR_REAL_BASE + preldrJmpOffset img + PRELDR_PTR_BLOCK_SIZE) +
        PRELDR_FUNC_BLOCK_SIZE then
    (PRELDR_STATUS_ERROR, img)
  else
    let key := preldrCreateKey p.mcpx_sbkey (preldrNonce img)
    let dec := symmetricEncDecBldr img img.length key
    if le32 (extract dec (bldrOffset img.length + BOOT_PARAMS_OFF) 4) =
        BOOT_SIGNATURE then
      (PRELDR_STATUS_BLDR_DECRYPTED, dec)
    else
      (PRELDR_STATUS_FOUND, symmetricEncDecBldr dec img.length key)

/-- The image after the 2BL decryption stage of `load`: if the preldr
decoder already decrypted the 2BL it is left alone, otherwise it is
decrypted with the user-supplied 2BL key when the image is flagged
encrypted. -/
def loadDecryptedImage (buff : List Nat) (p : BIOS_LOAD_PARAMS) : List Nat :=
  if (preldrValidateAndDecryptBldr buff p).1 = PRELDR_STATUS_BLDR_DECRYPTED then
    (preldrValidateAndDecryptBldr buff p).2
  else if p.enc_bldr then
    symmetricEncDecBldr (preldrValidateAndDecryptBldr buff p).2 buff.length
      p.bldr_key
  else (preldrValidateAndDecryptBldr buff p).2

/-- The boot params `load` parses out of the decrypted 2BL. -/
def loadBootParams (buff : List Nat) (p : BIOS_LOAD_PARAMS) : BOOT_PARAMS :=
  parseBootParams
    (extract (loadDecryptedImage buff p)
      (bldrOffset buff.length + BOOT_PARAMS_OFF) BOOT_PARAMS_SIZE)

/-- The 2BL keys struct `load` reads out of the decrypted 2BL. -/
def loadKeys (buff : List Nat) (p : BIOS_LOAD_PARAMS) : List Nat :=
  extract (loadDecryptedImage buff p) (bldrOffset buff.length + KEYS_OFF) 32

/-- The image after the kernel decryption stage of `load`. -/
def loadKernelImage (buff : List Nat) (p : BIOS_LOAD_PARAMS) : List Nat :=
  if p.enc_kernel then
    symmetricEncDecKernel (loadDecryptedImage buff p) (loadBootParams buff p) p
      ((loadKeys buff p).take 16) ((loadKeys buff p).drop 16)
  else loadDecryptedImage buff p

/-- Modelled from the spec: `Bios::load` is declared in src/inc/Bios.h
without a body.  Gate the size, run the preldr decoder, decrypt the 2BL
with the supplied key if the preldr did not already decrypt it and the
image is flagged encrypted, parse and validate the boot params (rejection
is the soft `INVALID_BLDR` status with the boot params still readable),
then decrypt the kernel and kernel-data regions with the effective keys
and expose the decoded fields. -/
def load (buff : List Nat) (p : BIOS_LOAD_PARAMS) : DecodedBios :=
  if bios_check_size buff.length ≠ 0 then failedDecode
  else if validateBldrBootParams (loadBootParams buff p) buff.length ≠ 0 then
    { failedDecode with
        bios_status := BIOS_LOAD_STATUS_INVALID_BLDR
        preldr_status := (preldrValidateAndDecryptBldr buff p).1
        boot_params := loadBootParams buff p }
  else
    { bios_status := BIOS_LOAD_STATUS_SUCCESS
      preldr_status := (preldrValidateAndDecryptBldr buff p).1
      init_tbl := extract (loadKernelImage buff p) 0 (loadBootParams buff p).init_tbl_size
      preldr := extract (loadKernelImage buff p) (preldrOffset buff.length)
        (PRELDR_SIZE + PRELDR_PARAMS_SIZE)
      bldr := extract (loadKernelImage buff p) (bldrOffset buff.length) BLDR_CODE_SIZE
      boot_params := loadBootParams buff p
      keys := loadKeys buff p
      kernel := extract (loadKernelImage buff p) (loadBootParams buff p).kernel_offset
        (loadBootParams buff p).bldr_size
      kernel_data := extract (loadKernelImage buff p)
        ((loadBootParams buff p).kernel_offset + (loadBootParams buff p).bldr_size)
        (loadBootParams buff p).krnl_data_size
      rom_digest := extract (loadKernelImage buff p) (romDigestOffset buff.length)
        SHA1_DIGEST_LEN
      bldr_encryption_state := false
      kernel_encryption_state := false }

/-! ## Image builder, modelled from the spec

`Bios::build` is declared in src/inc/Bios.h without a body.  The spec
fixes the assembly order: layout, populate plaintext fields, patch boot
params, compute digests, encrypt kernel and data, encrypt the 2BL.  Each
stage below is one step of that order; the boot-params record `bp`
carries the values the builder patches into the image. -/

/-- The boot params the builder writes: the signature is forced to
`BOOT_SIGNATURE` unless the `hacksignature` flag leaves it as-is. -/
def patchSignature (hack : Bool) (bp : BOOT_PARAMS) : BOOT_PARAMS :=
  if hack then bp else { bp with signature := BOOT_SIGNATURE }

/-- Modelled from the spec: the init-table checksum algorithm is left
unspecified (spec open question); modelled as the 32-bit byte sum. -/
def inittblChecksum (tbl : List Nat) : Nat :=
  w32 (tbl.foldl (fun a b => a + b) 0)

/-- Modelled from the spec: the offset of the init-table checksum field;
the init table layout lives in the absent header bldr.h. -/
def INIT_TBL_CHECKSUM_OFF : Nat := 0x40

/-- Build stage 1a: zero-filled buffer with the init table written at
offset zero. -/
def buildW1 (B : BIOS_BUILD_PARAMS) (size : Nat) : List Nat :=
  writeAt (List.replicate size 0) 0 B.init_tbl

/-- Build stage 1b: the 2BL written verbatim into its block. -/
def buildW2 (B : BIOS_BUILD_PARAMS) (size : Nat) : List Nat :=
  writeAt (buildW1 B size) (bldrOffset size) B.bldr

/-- Build stage 1c: the preldr written verbatim into its block. -/
def buildW3 (B : BIOS_BUILD_PARAMS) (size : Nat) : List Nat :=
  writeAt (buildW2 B size) (preldrOffset size) B.preldr

/-- Build stage 1d: the compressed kernel written at its offset. -/
def buildW4 (B : BIOS_BUILD_PARAMS) (bp : BOOT_PARAMS) (size : Nat) :
    List Nat :=
  writeAt (buildW3 B size) bp.kernel_offset B.compressed_kernel

/-- Build stage 1: all components written verbatim into their slots
(kernel data adjacent to the compressed kernel). -/
def buildPlain (B : BIOS_BUILD_PARAMS) (bp : BOOT_PARAMS) (size : Nat) :
    List Nat :=
  writeAt (buildW4 B bp size) (bp.kernel_offset + bp.bldr_size) B.kernel_data

/-- Build stage 2: patch the boot params (skipped by `nobootparams`). -/
def buildPatched (B : BIOS_BUILD_PARAMS) (bp : BOOT_PARAMS) (size : Nat) :
    List Nat :=
  if B.nobootparams then buildPlain B bp size
  else
    writeAt (buildPlain B bp size) (bldrOffset size + BOOT_PARAMS_OFF)
      (serializeBootParams (patchSignature B.hacksignature bp))

/-- Build stage 3: init-table checksum fixup (skipped by `hackinittbl`). -/
def buildChecksummed (B : BIOS_BUILD_PARAMS) (bp : BOOT_PARAMS) (size : Nat) :
    List Nat :=
  if B.hackinittbl then buildPatched B bp size
  else
    writeAt (buildPatched B bp size) INIT_TBL_CHECKSUM_OFF
      (le32Bytes (inittblChecksum B.init_tbl))

/-- Build stage 4: zero the in-image kernel key when `zero_kernel_key`. -/
def buildZeroKey (B : BIOS_BUILD_PARAMS) (bp : BOOT_PARAMS) (size : Nat) :
    List Nat :=
  if B.zero_kernel_key then
    writeAt (buildChecksummed B bp size) (bldrOffset size + KEYS_OFF)
      (List.replicate 16 0)
  else buildChecksummed B bp size

/-- Build stage 5: embed the boot-from-media key when `bfm`. -/
def buildBfm (B : BIOS_BUILD_PARAMS) (bp : BOOT_PARAMS) (size : Nat) :
    List Nat :=
  if B.bfm then
    writeAt (buildZeroKey B bp size) (bldrOffset size + BFM_KEY_OFF)
      B.eeprom_key
  else buildZeroKey B bp size

/-- Build stage 6: recompute and embed the SHA-1 digest of the 2BL into
the ROM digest region when `fix2bldigest`. -/
def buildDigested (B : BIOS_BUILD_PARAMS) (bp : BOOT_PARAMS) (size : Nat) :
    List Nat :=
  if B.fix2bldigest then
    writeAt (buildBfm B bp size) (romDigestOffset size)
      (sha1 (extract (buildBfm B bp size) (bldrOffset size) BLDR_CODE_SIZE))
  else buildBfm B bp size

/-- Build stage 7: encrypt the kernel and kernel-data regions (when the
load params say the image carries them encrypted), with the effective
kernel key and the in-image kernel-data key. -/
def buildEncKernel (B : BIOS_BUILD_PARAMS) (bp : BOOT_PARAMS)
    (p : BIOS_LOAD_PARAMS) (size : Nat) : List Nat :=
  if p.enc_kernel then
    symmetricEncDecKernel (buildDigested B bp size) bp p
      ((extract (buildDigested B bp size) (bldrOffset size + KEYS_OFF) 32).take 16)
      ((extract (buildDigested B bp size) (bldrOffset size + KEYS_OFF) 32).drop 16)
  else buildDigested B bp size

/-- Modelled from the spec: `Bios::build`.  Assemble all components in
canonical layout, then encrypt the 2BL last (when the load params say the
image carries it encrypted). -/
def build (B : BIOS_BUILD_PARAMS) (bp : BOOT_PARAMS) (binsize : Nat)
    (p : BIOS_LOAD_PARAMS) : List Nat :=
  if p.enc_bldr then
    symmetricEncDecBldr (buildEncKernel B bp p binsize) binsize p.bldr_key
  else buildEncKernel B bp p binsize

/-- The well-formedness of a component tuple for `build` at a given
image size: every component has the size its boot params declare, the
init table, kernel and kernel data lie below the 2BL block in
non-overlapping slots, and the image is large enough to hold the fixed
top-of-image blocks. -/
structure BuildFit (B : BIOS_BUILD_PARAMS) (bp : BOOT_PARAMS) (size : Nat) :
    Prop where
  size_big : 0x6200 ≤ size
  init_len : B.init_tbl.length = bp.init_tbl_size
  bldr_len : B.bldr.length = BLDR_CODE_SIZE
  preldr_len : B.preldr.length = PRELDR_SIZE + PRELDR_PARAMS_SIZE
  kernel_len : B.compressed_kernel.length = bp.bldr_size
  data_len : B.kernel_data.length = bp.krnl_data_size
  init_below : bp.init_tbl_size ≤ bp.kernel_offset
  kernel_below : bp.kernel_offset + bp.bldr_size + bp.krnl_data_size ≤
    size - 0x6200

/-! ## Lifecycle: handle, unload, destructor -/

/-- The key-owning part of the `Bios` class: the owned buffer and the
derived key material (`PRELDR::bldr_key` and the kernel key copy). -/
structure BiosHandle where
  data : Option (List Nat)
  bldr_key : List Nat
  kernel_key : List Nat
deriving Repr, DecidableEq

/-- Modelled from the spec: `Bios::unload` is declared in src/inc/Bios.h
without a body; it frees the owned buffer and zeroes every byte of the
derived key material. -/
def unload (_b : BiosHandle) : BiosHandle :=
  { data := none
    bldr_key := List.replicate SHA1_DIGEST_LEN 0
    kernel_key := List.replicate 16 0 }

/-- The `Bios` destructor: src/inc/Bios.h line 163 defines it inline as
a call to `unload`. -/
def biosDestructor (b : BiosHandle) : BiosHandle := unload b

/-- Modelled from the spec: the handle state after `load`; a hard failure
leaves the handle in the defined unloaded state (buffer freed, keys
zeroed), otherwise the handle owns the buffer and the key material. -/
def loadHandle (buff : List Nat) (p : BIOS_LOAD_PARAMS) : BiosHandle :=
  if (load buff p).bios_status = BIOS_LOAD_STATUS_FAILED then
    unload { data := some buff, bldr_key := p.bldr_key, kernel_key := p.kernel_key }
  else
    { data := some buff, bldr_key := p.bldr_key, kernel_key := p.kernel_key }

/-- Every byte of the handle's key material is zero and the buffer is
freed. -/
def handleZeroed (b : BiosHandle) : Prop :=
  (∀ x ∈ b.bldr_key, x = 0) ∧ (∀ x ∈ b.kernel_key, x = 0) ∧ b.data = none

/-! ## Encryption-state flags and decoder steps -/

/-- Soft error: the entity is already plaintext, decrypt is refused. -/
def SOFT_ERROR_ALREADY_PLAINTEXT : Nat := 1

/-- The mutable state the decoder steps act on: the image and the
encryption-state flag of each entity (`true` while ciphertext). -/
structure LoadState where
  img : List Nat
  bldr_encryption_state : Bool
  kernel_encryption_state : Bool
deriving Repr, DecidableEq

/-- The decoder steps of the load sequence. -/
inductive DecoderStep where
  | preldrStep
  | bldrDecryptStep
  | kernelDecryptStep
  | decompressStep
deriving Repr, DecidableEq

/-- Modelled from the spec: one decoder step of the load sequence.  The
preldr step clears the 2BL flag only when it decrypted the 2BL; the 2BL
and kernel decrypt steps are guarded by the encryption-state flag and
refuse with the `AlreadyPlaintext` soft error instead of re-applying the
cipher; decompression touches no flag.  Returns the new state and a
status (0 on success). -/
def applyDecoderStep (p : BIOS_LOAD_PARAMS) (bp : BOOT_PARAMS)
    (s : DecoderStep) (st : LoadState) : LoadState × Nat :=
  match s with
  | .preldrStep =>
      let r := preldrValidateAndDecryptBldr st.img p
      if r.1 = PRELDR_STATUS_BLDR_DECRYPTED then
        ({ st with img := r.2, bldr_encryption_state := false }, 0)
      else ({ st with img := r.2 }, 0)
  | .bldrDecryptStep =>
      if st.bldr_encryption_state = false then
        (st, SOFT_ERROR_ALREADY_PLAINTEXT)
      else
        ({ st with
            img := symmetricEncDecBldr st.img st.img.length p.bldr_key
            bldr_encryption_state := false }, 0)
  | .kernelDecryptStep =>
      if st.kernel_encryption_state = false then
        (st, SOFT_ERROR_ALREADY_PLAINTEXT)
      else
        ({ st with
            img := symmetricEncDecKernel st.img bp p
              ((extract st.img (bldrOffset st.img.length + KEYS_OFF) 32).take 16)
              ((extract st.img (bldrOffset st.img.length + KEYS_OFF) 32).drop 16)
            kernel_encryption_state := false }, 0)
  | .decompressStep => (st, 0)

/-! ## Sample inputs for concrete evaluations -/

/-- Load parameters for a legacy image: no MCPX secret boot key (v1.0,
no preldr expected), plaintext 2BL and kernel. -/
def sampleLoadParams : BIOS_LOAD_PARAMS :=
  { romsize := 0x40000, bldr_key := [], kernel_key := [7]
    mcpx_sbkey := [], enc_bldr := false, enc_kernel := false
    restore_boot_params := false }

/-- Valid boot params for a 256 KiB image, kernel key taken in-image. -/
def sampleBootParamsNoDelay : BOOT_PARAMS :=
  { signature := BOOT_SIGNATURE, bldr_size := 1, krnl_data_size := 1
    init_tbl_size := 0, kernel_offset := 0, kernel_key_word := 0
    romsize := 0x40000 }

/-- Valid boot params for a 256 KiB image with `KD_DELAY_FLAG` set. -/
def sampleBootParamsDelay : BOOT_PARAMS :=
  { signature := BOOT_SIGNATURE, bldr_size := 1, krnl_data_size := 1
    init_tbl_size := 0, kernel_offset := 0, kernel_key_word := KD_DELAY_FLAG
    romsize := 0x40000 }

/-- A 256 KiB all-zero image with valid serialized boot params spliced
into the boot-params slot of the 2BL block. -/
def sampleValidImage : List Nat :=
  writeAt (List.replicate 0x40000 0) (bldrOffset 0x40000 + BOOT_PARAMS_OFF)
    (serializeBootParams sampleBootParamsNoDelay)

/-- Load parameters with an MCPX v1.1 secret boot key supplied. -/
def preldrSampleParams : BIOS_LOAD_PARAMS :=
  { romsize := 0x40000, bldr_key := [], kernel_key := []
    mcpx_sbkey := [1], enc_bldr := false, enc_kernel := false
    restore_boot_params := false }

/-- The 2BL key derived from the sample secret boot key and a zero
nonce. -/
def preldrSampleKey : List Nat :=
  preldrCreateKey [1] (List.replicate 16 0)

/-- A 0x6200-byte plaintext image: four signature bytes at the
boot-params slot of the (offset-zero) 2BL block and a jump offset of one
at the start of the preldr block; nonce bytes are zero. -/
def preldrPlain (sig : List Nat) : List Nat :=
  writeAt (writeAt (List.replicate 0x6200 0) 0x35E4 sig) 0x3600 [1, 0, 0, 0]

/-- The same image with the 2BL block encrypted under the derived key. -/
def preldrImg (sig : List Nat) : List Nat :=
  symmetricEncDecRegion (preldrPlain sig) 0 0x3600 preldrSampleKey

/-- Valid boot params for the round-trip sample at 256 KiB: unit-sized
init table, kernel and kernel data, kernel key supplied externally. -/
def sampleRoundBootParams : BOOT_PARAMS :=
  { signature := BOOT_SIGNATURE, bldr_size := 1, krnl_data_size := 1
    init_tbl_size := 1, kernel_offset := 1, kernel_key_word := KD_DELAY_FLAG
    romsize := 0x40000 }

/-- A sample 2BL component carrying its serialized boot params at the
boot-params slot. -/
def sampleRoundBldr : List Nat :=
  writeAt (List.replicate 0x3600 0) 0x35E4
    (serializeBootParams sampleRoundBootParams)

/-- A sample component tuple for the build/load round trip. -/
def sampleBuildParams : BIOS_BUILD_PARAMS :=
  { init_tbl := [9], preldr := List.replicate 0x2900 0
    bldr := sampleRoundBldr, compressed_kernel := [7], kernel_data := [8]
    eeprom_key := [], cert_key := []
    bfm := false, hackinittbl := true, hacksignature := false
    nobootparams := false, zero_kernel_key := false, fix2bldigest := true }

/-- Load parameters for the round-trip sample: 2BL and kernel carried
encrypted, inverse keys supplied, no MCPX ROM. -/
def sampleRoundLoadParams : BIOS_LOAD_PARAMS :=
  { romsize := 0x40000, bldr_key := [3], kernel_key := [4]
    mcpx_sbkey := [], enc_bldr := true, enc_kernel := true
    restore_boot_params := false }

/-! ## Lemmas: byte-buffer algebra -/

theorem length_extract {buf : List Nat} {off len : Nat}
    (h : off + len ≤ buf.length) : (extract buf off len).length = len := by
  simp [extract]
  omega

theorem getElem?_extract (buf : List Nat) (off len i : Nat) :
    (extract buf off len)[i]? = if i < len then buf[off + i]? else none := by
  simp [extract, List.getElem?_take, List.getElem?_drop]

theorem length_writeAt {buf src : List Nat} {off : Nat}
    (h : off + src.length ≤ buf.length) :
    (writeAt buf off src).length = buf.length := by
  simp [writeAt]
  omega

theorem getElem?_writeAt (buf src : List Nat) (off : Nat)
    (h : off + src.length ≤ buf.length) (i : Nat) :
    (writeAt buf off src)[i]? =
      if i < off then buf[i]?
      else if i < off + src.length then src[i - off]?
      else buf[i]? := by
  have hofflen : (buf.take off).length = off := by
    simp
    omega
  rw [writeAt, List.append_assoc, List.getElem?_append, List.getElem?_take,
    List.getElem?_append, List.getElem?_drop, hofflen]
  split_ifs
  all_goals first | rfl | omega | (congr 1; omega)

theorem extract_writeAt_self {buf src : List Nat} {off len : Nat}
    (h : off + src.length ≤ buf.length) (hlen : src.length = len) :
    extract (writeAt buf off src) off len = src := by
  apply List.ext_getElem?
  intro i
  rw [getElem?_extract, getElem?_writeAt buf src off h]
  split_ifs
  all_goals
    first
      | omega
      | (congr 1; omega)
      | (exact (List.getElem?_eq_none (by omega)).symm)

theorem extract_writeAt_disjoint {buf src : List Nat} {off off2 len : Nat}
    (h : off + src.length ≤ buf.length)
    (hd : off2 + len ≤ off ∨ off + src.length ≤ off2) :
    extract (writeAt buf off src) off2 len = extract buf off2 len := by
  apply List.ext_getElem?
  intro i
  rw [getElem?_extract, getElem?_extract, getElem?_writeAt buf src off h]
  split_ifs
  all_goals first | rfl | omega

theorem writeAt_extract_eq {buf : List Nat} {off len : Nat}
    (h : off + len ≤ buf.length) :
    writeAt buf off (extract buf off len) = buf := by
  apply List.ext_getElem?
  intro i
  rw [getElem?_writeAt buf _ off (by rw [length_extract h]; omega) i]
  rw [length_extract h, getElem?_extract]
  split_ifs
  all_goals first | rfl | omega | (congr 1; omega)

theorem writeAt_writeAt_same {buf a b : List Nat} {off : Nat}
    (h : off + a.length ≤ buf.length) (hab : a.length = b.length) :
    writeAt (writeAt buf off a) off b = writeAt buf off b := by
  apply List.ext_getElem?
  intro i
  have hw : (writeAt buf off a).length = buf.length := length_writeAt h
  have hb2 : off + b.length ≤ (writeAt buf off a).length := by omega
  rw [getElem?_writeAt (writeAt buf off a) b off hb2 i,
    getElem?_writeAt buf b off (by omega) i, getElem?_writeAt buf a off h i]
  split_ifs
  all_goals first | rfl | omega

theorem extract_extract_sub {buf : List Nat} {off len d l : Nat}
    (h : d + l ≤ len) :
    extract buf (off + d) l = extract (extract buf off len) d l := by
  apply List.ext_getElem?
  intro i
  rw [getElem?_extract, getElem?_extract, getElem?_extract]
  split_ifs
  all_goals first | rfl | omega | (congr 1; omega)

theorem take_extract (buf : List Nat) (off a b : Nat) :
    (extract buf off (a + b)).take a = extract buf off a := by
  apply List.ext_getElem?
  intro i
  rw [List.getElem?_take, getElem?_extract, getElem?_extract]
  split_ifs
  all_goals first | rfl | omega

theorem drop_extract (buf : List Nat) (off a b : Nat) :
    (extract buf off (a + b)).drop a = extract buf (off + a) b := by
  apply List.ext_getElem?
  intro i
  rw [List.getElem?_drop, getElem?_extract, getElem?_extract]
  split_ifs
  all_goals first | rfl | omega | (congr 1; omega)

/-! ## Lemmas: RC4 involution -/

theorem length_keystream (n : Nat) (st : List Nat × Nat × Nat) :
    (keystream n st).length = n := by
  induction n generalizing st with
  | zero => rfl
  | succ n ih => simp [keystream, ih]

theorem length_rc4 (key data : List Nat) : (rc4 key data).length = data.length := by
  simp [rc4, length_keystream]

theorem zipWith_xor_cancel (l ks : List Nat) (h : l.length = ks.length) :
    List.zipWith Nat.xor (List.zipWith Nat.xor l ks) ks = l := by
  induction l generalizing ks with
  | nil => simp
  | cons a l ih =>
      cases ks with
      | nil => simp at h
      | cons k ks =>
          simp only [List.zipWith_cons_cons]
          have hx : (a.xor k).xor k = a := Nat.xor_cancel_right k a
          rw [hx, ih ks (by simpa using h)]

theorem rc4_rc4 (key data : List Nat) : rc4 key (rc4 key data) = data := by
  rw [show rc4 key (rc4 key data) =
      List.zipWith Nat.xor (rc4 key data)
        (keystream (rc4 key data).length (ksa key, 0, 0)) from rfl]
  rw [length_rc4, rc4]
  exact zipWith_xor_cancel data _ ((length_keystream _ _).symm)

/-! ## Lemmas: region cipher -/

theorem length_symmetricEncDecRegion {img : List Nat} {off len : Nat}
    (key : List Nat) (h : off + len ≤ img.length) :
    (symmetricEncDecRegion img off len key).length = img.length := by
  rw [symmetricEncDecRegion, length_writeAt]
  rw [length_rc4, length_extract h]
  omega

theorem extract_symmetricEncDecRegion_self {img : List Nat} {off len : Nat}
    (key : List Nat) (h : off + len ≤ img.length) :
    extract (symmetricEncDecRegion img off len key) off len =
      rc4 key (extract img off len) := by
  rw [symmetricEncDecRegion]
  exact extract_writeAt_self
    (by rw [length_rc4, length_extract h]; omega)
    (by rw [length_rc4, length_extract h])

theorem extract_symmetricEncDecRegion_disjoint {img : List Nat}
    {off len off2 len2 : Nat} (key : List Nat) (h : off + len ≤ img.length)
    (hd : off2 + len2 ≤ off ∨ off + len ≤ off2) :
    extract (symmetricEncDecRegion img off len key) off2 len2 =
      extract img off2 len2 := by
  rw [symmetricEncDecRegion]
  exact extract_writeAt_disjoint
    (by rw [length_rc4, length_extract h]; omega)
    (by rw [length_rc4, length_extract h]; exact hd)

theorem symmetricEncDecRegion_involution {img : List Nat} {off len : Nat}
    (key : List Nat) (h : off + len ≤ img.length) :
    symmetricEncDecRegion (symmetricEncDecRegion img off len key) off len key =
      img := by
  have h2 : (symmetricEncDecRegion img off len key).length = img.length :=
    length_symmetricEncDecRegion key h
  rw [show symmetricEncDecRegion (symmetricEncDecRegion img off len key) off len
        key =
      writeAt (symmetricEncDecRegion img off len key) off
        (rc4 key (extract (symmetricEncDecRegion img off len key) off len))
      from rfl]
  rw [extract_symmetricEncDecRegion_self key h, rc4_rc4, symmetricEncDecRegion]
  rw [writeAt_writeAt_same (by rw [length_rc4, length_extract h]; omega)
    (by rw [length_rc4])]
  exact writeAt_extract_eq h

/-! ## Lemmas: serialization -/

theorem length_le32Bytes (n : Nat) : (le32Bytes n).length = 4 := by
  simp [le32Bytes]

theorem le32_le32Bytes {n : Nat} (h : n < 4294967296) :
    le32 (le32Bytes n) = n := by
  simp [le32, le32Bytes]
  omega

theorem length_serializeBootParams (bp : BOOT_PARAMS) :
    (serializeBootParams bp).length = BOOT_PARAMS_SIZE := by
  simp [serializeBootParams, le32Bytes, BOOT_PARAMS_SIZE]

theorem parseBootParams_serializeBootParams {bp : BOOT_PARAMS}
    (h : BootParamsBounded bp) :
    parseBootParams (serializeBootParams bp) = bp := by
  obtain ⟨h1, h2, h3, h4, h5, h6, h7⟩ := h
  ext
  all_goals
    simp [parseBootParams, serializeBootParams, le32Bytes, le32, extract]
  all_goals omega

/-! ## Lemmas: SHA-1 digest length -/

theorem length_beBytes (k n : Nat) : (beBytes k n).length = k := by
  induction k generalizing n with
  | zero => rfl
  | succ k ih => simp [beBytes, ih]

theorem length_sha1 (msg : List Nat) : (sha1 msg).length = SHA1_DIGEST_LEN := by
  simp [sha1, length_beBytes, SHA1_DIGEST_LEN]

theorem length_preldrCreateKey (sbkey nonce : List Nat) :
    (preldrCreateKey sbkey nonce).length = SHA1_DIGEST_LEN := by
  rw [preldrCreateKey, length_sha1]

theorem extract_replicate (n off len x : Nat) :
    extract (List.replicate n x) off len =
      List.replicate (min len (n - off)) x := by
  apply List.ext_getElem?
  intro i
  rw [getElem?_extract, List.getElem?_replicate, List.getElem?_replicate]
  split_ifs
  all_goals first | rfl | omega

theorem preldr_zero_sbkey (img : List Nat) (p : BIOS_LOAD_PARAMS)
    (h : p.mcpx_sbkey = []) :
    preldrValidateAndDecryptBldr img p = (PRELDR_STATUS_NOT_FOUND, img) := by
  rw [preldrValidateAndDecryptBldr]
  simp [h]

theorem loadDecryptedImage_plain (buff : List Nat) (p : BIOS_LOAD_PARAMS)
    (h1 : p.mcpx_sbkey = []) (h2 : p.enc_bldr = false) :
    loadDecryptedImage buff p = buff := by
  rw [loadDecryptedImage, preldr_zero_sbkey buff p h1]
  simp [h2, PRELDR_STATUS_NOT_FOUND, PRELDR_STATUS_BLDR_DECRYPTED]

/-! ## Lemmas: layout offsets as plain arithmetic -/

theorem bldrOffset_eq (size : Nat) : bldrOffset size = size - 0x6200 := by
  have h : (0x100000000 : Nat) - BLDR_REAL_BASE = 0x6200 := by decide
  rw [bldrOffset, h]

theorem preldrOffset_eq (size : Nat) : preldrOffset size = size - 0x2C00 := by
  have h : (0x100000000 : Nat) - PRELDR_REAL_BASE = 0x2C00 := by decide
  rw [preldrOffset, h]

theorem preldrParamsOffset_eq (size : Nat) (h : 0x2C00 ≤ size) :
    preldrParamsOffset size = size - 0x380 := by
  rw [preldrParamsOffset, preldrOffset_eq,
    show PRELDR_SIZE = 0x2880 from by decide]
  omega

theorem romDigestOffset_eq (size : Nat) (h : 0x2C00 ≤ size) :
    romDigestOffset size = size - 0x300 := by
  rw [romDigestOffset, preldrParamsOffset_eq size h,
    show PRELDR_PARAMS_SIZE = 0x80 from by decide]
  omega

theorem availableSpace_eq (size : Nat) : availableSpace size = size - 0x6200 := by
  rw [availableSpace, show BLDR_BLOCK_SIZE = 0x6000 from by decide,
    show MCPX_BLOCK_SIZE = 0x200 from by decide]
  omega

theorem extract_self_all {l : List Nat} {len : Nat} (h : l.length = len) :
    extract l 0 len = l := by
  rw [extract, List.drop_zero, ← h, List.take_length]

/-! ## Lemmas: lengths of the build stages -/

theorem buildW1_len {B : BIOS_BUILD_PARAMS} {bp : BOOT_PARAMS} {size : Nat}
    (h : BuildFit B bp size) : (buildW1 B size).length = size := by
  have hfit : 0 + B.init_tbl.length ≤ (List.replicate size (0 : Nat)).length := by
    rw [h.init_len]
    simp only [List.length_replicate]
    have h1 := h.init_below
    have h2 := h.kernel_below
    have h3 := h.size_big
    omega
  rw [buildW1, length_writeAt hfit]
  simp only [List.length_replicate]

theorem buildW1_fit_init {B : BIOS_BUILD_PARAMS} {bp : BOOT_PARAMS}
    {size : Nat} (h : BuildFit B bp size) :
    0 + B.init_tbl.length ≤ (List.replicate size (0 : Nat)).length := by
  rw [h.init_len]
  simp only [List.length_replicate]
  have h1 := h.init_below
  have h2 := h.kernel_below
  have h3 := h.size_big
  omega

theorem buildW2_fit_bldr {B : BIOS_BUILD_PARAMS} {bp : BOOT_PARAMS}
    {size : Nat} (h : BuildFit B bp size) :
    bldrOffset size + B.bldr.length ≤ (buildW1 B size).length := by
  rw [h.bldr_len, buildW1_len h, bldrOffset_eq,
    show BLDR_CODE_SIZE = 0x3600 from by decide]
  have h3 := h.size_big
  omega

theorem buildW2_len {B : BIOS_BUILD_PARAMS} {bp : BOOT_PARAMS} {size : Nat}
    (h : BuildFit B bp size) : (buildW2 B size).length = size := by
  rw [buildW2, length_writeAt (buildW2_fit_bldr h), buildW1_len h]

theorem buildW3_fit_preldr {B : BIOS_BUILD_PARAMS} {bp : BOOT_PARAMS}
    {size : Nat} (h : BuildFit B bp size) :
    preldrOffset size + B.preldr.length ≤ (buildW2 B size).length := by
  rw [h.preldr_len, buildW2_len h, preldrOffset_eq,
    show PRELDR_SIZE + PRELDR_PARAMS_SIZE = 0x2900 from by decide]
  have h3 := h.size_big
  omega

theorem buildW3_len {B : BIOS_BUILD_PARAMS} {bp : BOOT_PARAMS} {size : Nat}
    (h : BuildFit B bp size) : (buildW3 B size).length = size := by
  rw [buildW3, length_writeAt (buildW3_fit_preldr h), buildW2_len h]

theorem buildW4_fit_kernel {B : BIOS_BUILD_PARAMS} {bp : BOOT_PARAMS}
    {size : Nat} (h : BuildFit B bp size) :
    bp.kernel_offset + B.compressed_kernel.length ≤ (buildW3 B size).length := by
  rw [h.kernel_len, buildW3_len h]
  have h2 := h.kernel_below
  have h3 := h.size_big
  omega

theorem buildW4_len {B : BIOS_BUILD_PARAMS} {bp : BOOT_PARAMS} {size : Nat}
    (h : BuildFit B bp size) : (buildW4 B bp size).length = size := by
  rw [buildW4, length_writeAt (buildW4_fit_kernel h), buildW3_len h]

theorem buildPlain_fit_data {B : BIOS_BUILD_PARAMS} {bp : BOOT_PARAMS}
    {size : Nat} (h : BuildFit B bp size) :
    bp.kernel_offset + bp.bldr_size + B.kernel_data.length ≤
      (buildW4 B bp size).length := by
  rw [h.data_len, buildW4_len h]
  have h2 := h.kernel_below
  have h3 := h.size_big
  omega

theorem buildPlain_length {B : BIOS_BUILD_PARAMS} {bp : BOOT_PARAMS}
    {size : Nat} (h : BuildFit B bp size) :
    (buildPlain B bp size).length = size := by
  rw [buildPlain, length_writeAt (buildPlain_fit_data h), buildW4_len h]

/-! ## Lemmas: reading the components back out of the assembled image -/

theorem extract_buildPlain_sub2bl {B : BIOS_BUILD_PARAMS} {bp : BOOT_PARAMS}
    {size : Nat} (h : BuildFit B bp size) (d l : Nat)
    (hdl : d + l ≤ BLDR_CODE_SIZE) :
    extract (buildPlain B bp size) (bldrOffset size + d) l =
      extract B.bldr d l := by
  have hcode : BLDR_CODE_SIZE = 0x3600 := by decide
  have hkb := h.kernel_below
  have hsb := h.size_big
  rw [buildPlain]
  rw [extract_writeAt_disjoint (buildPlain_fit_data h)
    (Or.inr (by rw [h.data_len, bldrOffset_eq]; omega))]
  rw [buildW4]
  rw [extract_writeAt_disjoint (buildW4_fit_kernel h)
    (Or.inr (by rw [h.kernel_len, bldrOffset_eq]; omega))]
  rw [buildW3]
  rw [extract_writeAt_disjoint (buildW3_fit_preldr h)
    (Or.inl (by rw [bldrOffset_eq, preldrOffset_eq]; omega))]
  rw [buildW2]
  rw [extract_extract_sub hdl]
  rw [extract_writeAt_self (buildW2_fit_bldr h) h.bldr_len]

theorem extract_buildPlain_bldr {B : BIOS_BUILD_PARAMS} {bp : BOOT_PARAMS}
    {size : Nat} (h : BuildFit B bp size) :
    extract (buildPlain B bp size) (bldrOffset size) BLDR_CODE_SIZE =
      B.bldr := by
  have h0 := extract_buildPlain_sub2bl h 0 BLDR_CODE_SIZE (by omega)
  rw [Nat.add_zero] at h0
  rw [h0]
  exact extract_self_all h.bldr_len

theorem extract_buildPlain_init {B : BIOS_BUILD_PARAMS} {bp : BOOT_PARAMS}
    {size : Nat} (h : BuildFit B bp size) :
    extract (buildPlain B bp size) 0 bp.init_tbl_size = B.init_tbl := by
  have hib := h.init_below
  have hkb := h.kernel_below
  have hsb := h.size_big
  rw [buildPlain]
  rw [extract_writeAt_disjoint (buildPlain_fit_data h) (Or.inl (by omega))]
  rw [buildW4]
  rw [extract_writeAt_disjoint (buildW4_fit_kernel h) (Or.inl (by omega))]
  rw [buildW3]
  rw [extract_writeAt_disjoint (buildW3_fit_preldr h)
    (Or.inl (by rw [preldrOffset_eq]; omega))]
  rw [buildW2]
  rw [extract_writeAt_disjoint (buildW2_fit_bldr h)
    (Or.inl (by rw [bldrOffset_eq]; omega))]
  rw [buildW1]
  rw [extract_writeAt_self (buildW1_fit_init h) h.init_len]

theorem extract_buildPlain_preldr {B : BIOS_BUILD_PARAMS} {bp : BOOT_PARAMS}
    {size : Nat} (h : BuildFit B bp size) :
    extract (buildPlain B bp size) (preldrOffset size)
      (PRELDR_SIZE + PRELDR_PARAMS_SIZE) = B.preldr := by
  have hkb := h.kernel_below
  have hsb := h.size_big
  rw [buildPlain]
  rw [extract_writeAt_disjoint (buildPlain_fit_data h)
    (Or.inr (by rw [h.data_len, preldrOffset_eq]; omega))]
  rw [buildW4]
  rw [extract_writeAt_disjoint (buildW4_fit_kernel h)
    (Or.inr (by rw [h.kernel_len, preldrOffset_eq]; omega))]
  rw [buildW3]
  rw [extract_writeAt_self (buildW3_fit_preldr h) h.preldr_len]

theorem extract_buildPlain_kernel {B : BIOS_BUILD_PARAMS} {bp : BOOT_PARAMS}
    {size : Nat} (h : BuildFit B bp size) :
    extract (buildPlain B bp size) bp.kernel_offset bp.bldr_size =
      B.compressed_kernel := by
  rw [buildPlain]
  rw [extract_writeAt_disjoint (buildPlain_fit_data h) (Or.inl (by omega))]
  rw [buildW4]
  rw [extract_writeAt_self (buildW4_fit_kernel h) h.kernel_len]

theorem extract_buildPlain_data {B : BIOS_BUILD_PARAMS} {bp : BOOT_PARAMS}
    {size : Nat} (h : BuildFit B bp size) :
    extract (buildPlain B bp size)
      (bp.kernel_offset + bp.bldr_size) bp.krnl_data_size = B.kernel_data := by
  rw [buildPlain]
  rw [extract_writeAt_self (buildPlain_fit_data h) h.data_len]

/-! ## Lemmas: the build stages under the round-trip flag setting -/

theorem buildPatched_eq {B : BIOS_BUILD_PARAMS} {bp : BOOT_PARAMS}
    {size : Nat} (h : BuildFit B bp size)
    (hnbp : B.nobootparams = false) (hhsig : B.hacksignature = false)
    (hsig : bp.signature = BOOT_SIGNATURE)
    (hemb : extract B.bldr BOOT_PARAMS_OFF BOOT_PARAMS_SIZE =
      serializeBootParams bp) :
    buildPatched B bp size = buildPlain B bp size := by
  have hpatch : patchSignature B.hacksignature bp = bp := by
    rw [hhsig, patchSignature, if_neg Bool.false_ne_true]
    ext <;> simp [hsig]
  rw [buildPatched, hnbp, if_neg Bool.false_ne_true, hpatch]
  have hfit : bldrOffset size + BOOT_PARAMS_OFF + BOOT_PARAMS_SIZE ≤
      (buildPlain B bp size).length := by
    rw [buildPlain_length h, bldrOffset_eq,
      show BOOT_PARAMS_OFF = 0x35E4 from by decide,
      show BOOT_PARAMS_SIZE = 28 from by decide]
    have := h.size_big
    omega
  have hx : extract (buildPlain B bp size)
      (bldrOffset size + BOOT_PARAMS_OFF) BOOT_PARAMS_SIZE =
      serializeBootParams bp := by
    rw [extract_buildPlain_sub2bl h BOOT_PARAMS_OFF BOOT_PARAMS_SIZE (by decide)]
    exact hemb
  rw [← hx]
  exact writeAt_extract_eq hfit

theorem buildBfm_plain {B : BIOS_BUILD_PARAMS} {bp : BOOT_PARAMS}
    {size : Nat} (h : BuildFit B bp size)
    (hnbp : B.nobootparams = false) (hhsig : B.hacksignature = false)
    (hhit : B.hackinittbl = true) (hzk : B.zero_kernel_key = false)
    (hbfm : B.bfm = false)
    (hsig : bp.signature = BOOT_SIGNATURE)
    (hemb : extract B.bldr BOOT_PARAMS_OFF BOOT_PARAMS_SIZE =
      serializeBootParams bp) :
    buildBfm B bp size = buildPlain B bp size := by
  rw [buildBfm, hbfm, if_neg Bool.false_ne_true,
    buildZeroKey, hzk, if_neg Bool.false_ne_true,
    buildChecksummed, hhit, if_pos rfl,
    buildPatched_eq h hnbp hhsig hsig hemb]

theorem digested_fit {B : BIOS_BUILD_PARAMS} {bp : BOOT_PARAMS} {size : Nat}
    (h : BuildFit B bp size) :
    romDigestOffset size + (sha1 B.bldr).length ≤
      (buildPlain B bp size).length := by
  rw [length_sha1, buildPlain_length h,
    romDigestOffset_eq size (by have := h.size_big; omega),
    show SHA1_DIGEST_LEN = 20 from by decide]
  have := h.size_big
  omega

theorem digested_length {B : BIOS_BUILD_PARAMS} {bp : BOOT_PARAMS}
    {size : Nat} (h : BuildFit B bp size) :
    (writeAt (buildPlain B bp size) (romDigestOffset size)
      (sha1 B.bldr)).length = size := by
  rw [length_writeAt (digested_fit h), buildPlain_length h]

theorem buildDigested_eq {B : BIOS_BUILD_PARAMS} {bp : BOOT_PARAMS}
    {size : Nat} (h : BuildFit B bp size)
    (hnbp : B.nobootparams = false) (hhsig : B.hacksignature = false)
    (hhit : B.hackinittbl = true) (hzk : B.zero_kernel_key = false)
    (hbfm : B.bfm = false) (hfix : B.fix2bldigest = true)
    (hsig : bp.signature = BOOT_SIGNATURE)
    (hemb : extract B.bldr BOOT_PARAMS_OFF BOOT_PARAMS_SIZE =
      serializeBootParams bp) :
    buildDigested B bp size =
      writeAt (buildPlain B bp size) (romDigestOffset size) (sha1 B.bldr) := by
  rw [buildDigested, hfix, if_pos rfl,
    buildBfm_plain h hnbp hhsig hhit hzk hbfm hsig hemb,
    extract_buildPlain_bldr h]

theorem extract_digested_sub2bl {B : BIOS_BUILD_PARAMS} {bp : BOOT_PARAMS}
    {size : Nat} (h : BuildFit B bp size) (d l : Nat)
    (hdl : d + l ≤ BLDR_CODE_SIZE) :
    extract (writeAt (buildPlain B bp size) (romDigestOffset size)
      (sha1 B.bldr)) (bldrOffset size + d) l = extract B.bldr d l := by
  have hsb := h.size_big
  rw [extract_writeAt_disjoint (digested_fit h)
    (Or.inl (by
      rw [bldrOffset_eq, romDigestOffset_eq size (by omega)]
      rw [show BLDR_CODE_SIZE = 0x3600 from by decide] at hdl
      omega))]
  exact extract_buildPlain_sub2bl h d l hdl

theorem extract_digested_init {B : BIOS_BUILD_PARAMS} {bp : BOOT_PARAMS}
    {size : Nat} (h : BuildFit B bp size) :
    extract (writeAt (buildPlain B bp size) (romDigestOffset size)
      (sha1 B.bldr)) 0 bp.init_tbl_size = B.init_tbl := by
  have hsb := h.size_big
  have hib := h.init_below
  have hkb := h.kernel_below
  rw [extract_writeAt_disjoint (digested_fit h)
    (Or.inl (by rw [romDigestOffset_eq size (by omega)]; omega))]
  exact extract_buildPlain_init h

theorem extract_digested_preldr {B : BIOS_BUILD_PARAMS} {bp : BOOT_PARAMS}
    {size : Nat} (h : BuildFit B bp size) :
    extract (writeAt (buildPlain B bp size) (romDigestOffset size)
      (sha1 B.bldr)) (preldrOffset size) (PRELDR_SIZE + PRELDR_PARAMS_SIZE) =
      B.preldr := by
  have hsb := h.size_big
  rw [extract_writeAt_disjoint (digested_fit h)
    (Or.inl (by
      rw [preldrOffset_eq, romDigestOffset_eq size (by omega),
        show PRELDR_SIZE + PRELDR_PARAMS_SIZE = 0x2900 from by decide]
      omega))]
  exact extract_buildPlain_preldr h

theorem extract_digested_kernel {B : BIOS_BUILD_PARAMS} {bp : BOOT_PARAMS}
    {size : Nat} (h : BuildFit B bp size) :
    extract (writeAt (buildPlain B bp size) (romDigestOffset size)
      (sha1 B.bldr)) bp.kernel_offset bp.bldr_size = B.compressed_kernel := by
  have hsb := h.size_big
  have hkb := h.kernel_below
  rw [extract_writeAt_disjoint (digested_fit h)
    (Or.inl (by rw [romDigestOffset_eq size (by omega)]; omega))]
  exact extract_buildPlain_kernel h

theorem extract_digested_data {B : BIOS_BUILD_PARAMS} {bp : BOOT_PARAMS}
    {size : Nat} (h : BuildFit B bp size) :
    extract (writeAt (buildPlain B bp size) (romDigestOffset size)
      (sha1 B.bldr)) (bp.kernel_offset + bp.bldr_size) bp.krnl_data_size =
      B.kernel_data := by
  have hsb := h.size_big
  have hkb := h.kernel_below
  rw [extract_writeAt_disjoint (digested_fit h)
    (Or.inl (by rw [romDigestOffset_eq size (by omega)]; omega))]
  exact extract_buildPlain_data h

theorem extract_digested_digest {B : BIOS_BUILD_PARAMS} {bp : BOOT_PARAMS}
    {size : Nat} (h : BuildFit B bp size) :
    extract (writeAt (buildPlain B bp size) (romDigestOffset size)
      (sha1 B.bldr)) (romDigestOffset size) SHA1_DIGEST_LEN = sha1 B.bldr := by
  exact extract_writeAt_self (digested_fit h) (length_sha1 _)

theorem build_expr {B : BIOS_BUILD_PARAMS} {bp : BOOT_PARAMS} {size : Nat}
    {p : BIOS_LOAD_PARAMS} (h : BuildFit B bp size)
    (hnbp : B.nobootparams = false) (hhsig : B.hacksignature = false)
    (hhit : B.hackinittbl = true) (hzk : B.zero_kernel_key = false)
    (hbfm : B.bfm = false) (hfix : B.fix2bldigest = true)
    (hsig : bp.signature = BOOT_SIGNATURE)
    (hemb : extract B.bldr BOOT_PARAMS_OFF BOOT_PARAMS_SIZE =
      serializeBootParams bp)
    (hpe : p.enc_bldr = true) (hpk : p.enc_kernel = true)
    (hkd : bp.kernel_key_word &&& KD_DELAY_FLAG ≠ 0) :
    build B bp size p =
      symmetricEncDecRegion
        (symmetricEncDecRegion
          (symmetricEncDecRegion
            (writeAt (buildPlain B bp size) (romDigestOffset size)
              (sha1 B.bldr))
            bp.kernel_offset bp.bldr_size p.kernel_key)
          (bp.kernel_offset + bp.bldr_size) bp.krnl_data_size
          ((extract B.bldr KEYS_OFF 32).drop 16))
        (bldrOffset size) BLDR_CODE_SIZE p.bldr_key := by
  have hkeys : extract (writeAt (buildPlain B bp size) (romDigestOffset size)
      (sha1 B.bldr)) (bldrOffset size + KEYS_OFF) 32 =
      extract B.bldr KEYS_OFF 32 :=
    extract_digested_sub2bl h KEYS_OFF 32 (by decide)
  rw [build, hpe, if_pos rfl, buildEncKernel, hpk, if_pos rfl,
    buildDigested_eq h hnbp hhsig hhit hzk hbfm hfix hsig hemb, hkeys,
    symmetricEncDecKernel, kernelEncDecKey, if_pos hkd, symmetricEncDecBldr]

/-- C1: build/load round trip.  Loading the image produced by `build`
with the inverse keys succeeds and recovers every component of the input
tuple byte-identically — the init table, preldr, 2BL, compressed kernel,
kernel data and keys struct — and the embedded ROM digest equals the
SHA-1 of the decoded 2BL region. -/
theorem build_load_round_trip (B : BIOS_BUILD_PARAMS) (bp : BOOT_PARAMS)
    (p : BIOS_LOAD_PARAMS) (size : Nat)
    (h : BuildFit B bp size)
    (hsz : bios_check_size size = 0)
    (hsbk : p.mcpx_sbkey = [])
    (hpe : p.enc_bldr = true) (hpk : p.enc_kernel = true)
    (hbfm : B.bfm = false) (hhit : B.hackinittbl = true)
    (hhsig : B.hacksignature = false) (hnbp : B.nobootparams = false)
    (hzk : B.zero_kernel_key = false) (hfix : B.fix2bldigest = true)
    (hsig : bp.signature = BOOT_SIGNATURE)
    (hbs : bp.bldr_size ≠ 0) (hds : bp.krnl_data_size ≠ 0)
    (hrom : bios_check_size bp.romsize = 0)
    (hbb : BootParamsBounded bp)
    (hkd : bp.kernel_key_word &&& KD_DELAY_FLAG ≠ 0)
    (hemb : extract B.bldr BOOT_PARAMS_OFF BOOT_PARAMS_SIZE =
      serializeBootParams bp) :
    (load (build B bp size p) p).bios_status = BIOS_LOAD_STATUS_SUCCESS ∧
    (load (build B bp size p) p).boot_params = bp ∧
    (load (build B bp size p) p).init_tbl = B.init_tbl ∧
    (load (build B bp size p) p).preldr = B.preldr ∧
    (load (build B bp size p) p).bldr = B.bldr ∧
    (load (build B bp size p) p).kernel = B.compressed_kernel ∧
    (load (build B bp size p) p).kernel_data = B.kernel_data ∧
    (load (build B bp size p) p).keys = extract B.bldr KEYS_OFF 32 ∧
    (load (build B bp size p) p).rom_digest =
      sha1 ((load (build B bp size p) p).bldr) := by
  have hsb := h.size_big
  have hkb := h.kernel_below
  have hib := h.init_below
  have hcode : BLDR_CODE_SIZE = 0x3600 := by decide
  have hbo : bldrOffset size = size - 0x6200 := bldrOffset_eq size
  have hpo : preldrOffset size = size - 0x2C00 := preldrOffset_eq size
  have hdo : romDigestOffset size = size - 0x300 :=
    romDigestOffset_eq size (by omega)
  rw [build_expr h hnbp hhsig hhit hzk hbfm hfix hsig hemb hpe hpk hkd]
  set i6 := writeAt (buildPlain B bp size) (romDigestOffset size) (sha1 B.bldr)
    with hi6
  set keysC := extract B.bldr KEYS_OFF 32 with hkeysC
  set zA := symmetricEncDecRegion i6 bp.kernel_offset bp.bldr_size
    p.kernel_key with hzA
  set zB := symmetricEncDecRegion zA (bp.kernel_offset + bp.bldr_size)
    bp.krnl_data_size (keysC.drop 16) with hzB
  set E := symmetricEncDecRegion zB (bldrOffset size) BLDR_CODE_SIZE
    p.bldr_key with hE
  have hi6len : i6.length = size := by
    rw [hi6]
    exact digested_length h
  have hkArfit : bp.kernel_offset + bp.bldr_size ≤ i6.length := by
    rw [hi6len]
    omega
  have hzAlen : zA.length = size := by
    rw [hzA, length_symmetricEncDecRegion _ hkArfit, hi6len]
  have hBfit : bp.kernel_offset + bp.bldr_size + bp.krnl_data_size ≤
      zA.length := by
    rw [hzAlen]
    omega
  have hzBlen : zB.length = size := by
    rw [hzB, length_symmetricEncDecRegion _ hBfit, hzAlen]
  have hCfit : bldrOffset size + BLDR_CODE_SIZE ≤ zB.length := by
    rw [hzBlen, hbo, hcode]
    omega
  have hElen : E.length = size := by
    rw [hE, length_symmetricEncDecRegion _ hCfit, hzBlen]
  have hpre : preldrValidateAndDecryptBldr E p =
      (PRELDR_STATUS_NOT_FOUND, E) := preldr_zero_sbkey E p hsbk
  have hdecimg : loadDecryptedImage E p = zB := by
    rw [loadDecryptedImage, hpre]
    rw [if_neg (show ¬ ((PRELDR_STATUS_NOT_FOUND, E).1 =
      PRELDR_STATUS_BLDR_DECRYPTED) from by
        simp [PRELDR_STATUS_NOT_FOUND, PRELDR_STATUS_BLDR_DECRYPTED])]
    rw [hpe, if_pos rfl]
    show symmetricEncDecBldr E E.length p.bldr_key = zB
    rw [hElen, symmetricEncDecBldr, hE]
    exact symmetricEncDecRegion_involution _ hCfit
  have hsub : ∀ d l, d + l ≤ BLDR_CODE_SIZE →
      extract zB (bldrOffset size + d) l = extract B.bldr d l := by
    intro d l hdl
    have hdl2 : d + l ≤ 0x3600 := by rw [hcode] at hdl; exact hdl
    rw [hzB]
    rw [extract_symmetricEncDecRegion_disjoint _ hBfit
      (Or.inr (by rw [hbo]; omega))]
    rw [hzA]
    rw [extract_symmetricEncDecRegion_disjoint _ hkArfit
      (Or.inr (by rw [hbo]; omega))]
    rw [hi6]
    exact extract_digested_sub2bl h d l hdl
  have hbpE : loadBootParams E p = bp := by
    rw [loadBootParams, hdecimg, hElen]
    rw [hsub BOOT_PARAMS_OFF BOOT_PARAMS_SIZE (by decide)]
    rw [hemb]
    exact parseBootParams_serializeBootParams hbb
  have hkeysE : loadKeys E p = keysC := by
    rw [loadKeys, hdecimg, hElen, hsub KEYS_OFF 32 (by decide), hkeysC]
  have hvalbp : validateBldrBootParams bp size = 0 := by
    rw [validateBldrBootParams, if_neg (by simp [hsig]), if_neg hbs,
      if_neg hds, if_neg (by rw [availableSpace_eq]; omega),
      if_neg (by simp [hrom])]
  have hgE : ¬ (bios_check_size E.length ≠ 0) := by
    rw [hElen, hsz]
    simp
  have hvE : ¬ (validateBldrBootParams (loadBootParams E p) E.length ≠ 0) := by
    rw [hbpE, hElen, hvalbp]
    simp
  have hkimgE : loadKernelImage E p =
      symmetricEncDecRegion
        (symmetricEncDecRegion zB bp.kernel_offset bp.bldr_size p.kernel_key)
        (bp.kernel_offset + bp.bldr_size) bp.krnl_data_size
        (keysC.drop 16) := by
    rw [loadKernelImage, hpk, if_pos rfl, hdecimg, hbpE, hkeysE,
      symmetricEncDecKernel, kernelEncDecKey, if_pos hkd]
  set yA := symmetricEncDecRegion zB bp.kernel_offset bp.bldr_size
    p.kernel_key with hyA
  set y4 := symmetricEncDecRegion yA (bp.kernel_offset + bp.bldr_size)
    bp.krnl_data_size (keysC.drop 16) with hy4
  have hyAfit : bp.kernel_offset + bp.bldr_size ≤ zB.length := by
    rw [hzBlen]
    omega
  have hyAlen : yA.length = size := by
    rw [hyA, length_symmetricEncDecRegion _ hyAfit, hzBlen]
  have hy4fitB : bp.kernel_offset + bp.bldr_size + bp.krnl_data_size ≤
      yA.length := by
    rw [hyAlen]
    omega
  have hy4skip : ∀ off len,
      (off + len ≤ bp.kernel_offset ∨
        bp.kernel_offset + bp.bldr_size + bp.krnl_data_size ≤ off) →
      extract y4 off len = extract zB off len := by
    intro off len hor
    rw [hy4]
    rw [extract_symmetricEncDecRegion_disjoint _ hy4fitB (by omega)]
    rw [hyA]
    rw [extract_symmetricEncDecRegion_disjoint _ hyAfit (by omega)]
  have hzBskip : ∀ off len,
      (off + len ≤ bp.kernel_offset ∨
        bp.kernel_offset + bp.bldr_size + bp.krnl_data_size ≤ off) →
      extract zB off len = extract i6 off len := by
    intro off len hor
    rw [hzB]
    rw [extract_symmetricEncDecRegion_disjoint _ hBfit (by omega)]
    rw [hzA]
    rw [extract_symmetricEncDecRegion_disjoint _ hkArfit (by omega)]
  have hbldrzB : extract zB (bldrOffset size) BLDR_CODE_SIZE = B.bldr := by
    have h0 := hsub 0 BLDR_CODE_SIZE (by omega)
    rw [Nat.add_zero] at h0
    rw [h0]
    exact extract_self_all h.bldr_len
  have hbldrfield : extract (loadKernelImage E p) (bldrOffset E.length)
      BLDR_CODE_SIZE = B.bldr := by
    rw [hElen, hkimgE]
    rw [hy4skip _ _ (Or.inr (by rw [hbo]; omega))]
    exact hbldrzB
  have hdigfield : extract (loadKernelImage E p) (romDigestOffset E.length)
      SHA1_DIGEST_LEN = sha1 B.bldr := by
    rw [hElen, hkimgE]
    rw [hy4skip _ _ (Or.inr (by rw [hdo]; omega))]
    rw [hzBskip _ _ (Or.inr (by rw [hdo]; omega))]
    rw [hi6]
    exact extract_digested_digest h
  rw [load, if_neg hgE, if_neg hvE]
  refine ⟨rfl, hbpE, ?_, ?_, ?_, ?_, ?_, hkeysE, ?_⟩
  · rw [hkimgE, hbpE]
    rw [hy4skip 0 bp.init_tbl_size (Or.inl (by omega))]
    rw [hzBskip 0 bp.init_tbl_size (Or.inl (by omega))]
    rw [hi6, extract_digested_init h]
  · rw [hElen, hkimgE]
    rw [hy4skip (preldrOffset size) (PRELDR_SIZE + PRELDR_PARAMS_SIZE)
      (Or.inr (by rw [hpo]; omega))]
    rw [hzBskip (preldrOffset size) (PRELDR_SIZE + PRELDR_PARAMS_SIZE)
      (Or.inr (by rw [hpo]; omega))]
    rw [hi6, extract_digested_preldr h]
  · rw [hElen, hkimgE]
    rw [hy4skip (bldrOffset size) BLDR_CODE_SIZE (Or.inr (by rw [hbo]; omega))]
    rw [hbldrzB]
  · have hker1 : extract y4 bp.kernel_offset bp.bldr_size =
        extract yA bp.kernel_offset bp.bldr_size := by
      rw [hy4]
      exact extract_symmetricEncDecRegion_disjoint _ hy4fitB
        (Or.inl (by omega))
    have hker2 : extract yA bp.kernel_offset bp.bldr_size =
        rc4 p.kernel_key (extract zB bp.kernel_offset bp.bldr_size) := by
      rw [hyA]
      exact extract_symmetricEncDecRegion_self _ hyAfit
    have hker3 : extract zB bp.kernel_offset bp.bldr_size =
        extract zA bp.kernel_offset bp.bldr_size := by
      rw [hzB]
      exact extract_symmetricEncDecRegion_disjoint _ hBfit (Or.inl (by omega))
    have hker4 : extract zA bp.kernel_offset bp.bldr_size =
        rc4 p.kernel_key (extract i6 bp.kernel_offset bp.bldr_size) := by
      rw [hzA]
      exact extract_symmetricEncDecRegion_self _ hkArfit
    have hker5 : extract i6 bp.kernel_offset bp.bldr_size =
        B.compressed_kernel := by
      rw [hi6]
      exact extract_digested_kernel h
    rw [hkimgE, hbpE, hker1, hker2, hker3, hker4, hker5, rc4_rc4]
  · have hdat1 : extract y4 (bp.kernel_offset + bp.bldr_size)
        bp.krnl_data_size =
        rc4 (keysC.drop 16) (extract yA (bp.kernel_offset + bp.bldr_size)
          bp.krnl_data_size) := by
      rw [hy4]
      exact extract_symmetricEncDecRegion_self _ hy4fitB
    have hdat2 : extract yA (bp.kernel_offset + bp.bldr_size)
        bp.krnl_data_size =
        extract zB (bp.kernel_offset + bp.bldr_size) bp.krnl_data_size := by
      rw [hyA]
      exact extract_symmetricEncDecRegion_disjoint _ hyAfit
        (Or.inr (by omega))
    have hdat3 : extract zB (bp.kernel_offset + bp.bldr_size)
        bp.krnl_data_size =
        rc4 (keysC.drop 16) (extract zA (bp.kernel_offset + bp.bldr_size)
          bp.krnl_data_size) := by
      rw [hzB]
      exact extract_symmetricEncDecRegion_self _ hBfit
    have hdat4 : extract zA (bp.kernel_offset + bp.bldr_size)
        bp.krnl_data_size =
        extract i6 (bp.kernel_offset + bp.bldr_size) bp.krnl_data_size := by
      rw [hzA]
      exact extract_symmetricEncDecRegion_disjoint _ hkArfit
        (Or.inr (by omega))
    have hdat5 : extract i6 (bp.kernel_offset + bp.bldr_size)
        bp.krnl_data_size = B.kernel_data := by
      rw [hi6]
      exact extract_digested_data h
    rw [hkimgE, hbpE, hdat1, hdat2, hdat3, hdat4, hdat5, rc4_rc4]
  · rw [hdigfield, hbldrfield]

/-- Witness for C1 at a concrete component tuple at the 256 KiB size:
the load succeeds, the 2BL is recovered byte-identically and the embedded
ROM digest is the SHA-1 of the decoded 2BL. -/
theorem build_load_round_trip_witness :
    (load (build sampleBuildParams sampleRoundBootParams 0x40000
        sampleRoundLoadParams) sampleRoundLoadParams).bios_status =
      BIOS_LOAD_STATUS_SUCCESS ∧
    (load (build sampleBuildParams sampleRoundBootParams 0x40000
        sampleRoundLoadParams) sampleRoundLoadParams).bldr =
      sampleBuildParams.bldr ∧
    (load (build sampleBuildParams sampleRoundBootParams 0x40000
        sampleRoundLoadParams) sampleRoundLoadParams).rom_digest =
      sha1 ((load (build sampleBuildParams sampleRoundBootParams 0x40000
        sampleRoundLoadParams) sampleRoundLoadParams).bldr) := by
  have hfit : (0x35E4 : Nat) +
      (serializeBootParams sampleRoundBootParams).length ≤
      (List.replicate 0x3600 (0 : Nat)).length := by
    rw [length_serializeBootParams]
    simp only [List.length_replicate]
    decide
  have hblen : sampleRoundBldr.length = BLDR_CODE_SIZE := by
    rw [sampleRoundBldr, length_writeAt hfit]
    simp only [List.length_replicate]
    decide
  have hemb : extract sampleRoundBldr BOOT_PARAMS_OFF BOOT_PARAMS_SIZE =
      serializeBootParams sampleRoundBootParams := by
    rw [sampleRoundBldr, show BOOT_PARAMS_OFF = 0x35E4 from by decide]
    exact extract_writeAt_self hfit (length_serializeBootParams _)
  have hpre : (List.replicate (0x2900 : Nat) (0 : Nat)).length =
      PRELDR_SIZE + PRELDR_PARAMS_SIZE := by
    simp only [List.length_replicate]
    decide
  have hB : BuildFit sampleBuildParams sampleRoundBootParams 0x40000 :=
    ⟨by decide, by decide, hblen, hpre, by decide, by decide, by decide,
      by decide⟩
  have hthm := build_load_round_trip sampleBuildParams sampleRoundBootParams
    sampleRoundLoadParams 0x40000 hB (by decide) rfl rfl rfl rfl rfl rfl rfl
    rfl rfl rfl (by decide) (by decide) (by decide) (by decide) (by decide)
    hemb
  exact ⟨hthm.1, hthm.2.2.2.2.1, hthm.2.2.2.2.2.2.2.2⟩

/-! ## Lemmas: concrete sample evaluations -/

theorem sampleValidImage_fit :
    bldrOffset 0x40000 + BOOT_PARAMS_OFF +
      (serializeBootParams sampleBootParamsNoDelay).length ≤
      (List.replicate 0x40000 (0 : Nat)).length := by
  rw [length_serializeBootParams]
  simp only [List.length_replicate]
  decide

theorem sampleValidImage_length : sampleValidImage.length = 0x40000 := by
  simp only [sampleValidImage, length_writeAt sampleValidImage_fit,
    List.length_replicate]

theorem loadBootParams_sampleValidImage :
    loadBootParams sampleValidImage sampleLoadParams =
      sampleBootParamsNoDelay := by
  rw [loadBootParams, loadDecryptedImage_plain _ _ rfl rfl,
    sampleValidImage_length, sampleValidImage,
    extract_writeAt_self sampleValidImage_fit (length_serializeBootParams _)]
  exact parseBootParams_serializeBootParams (by decide)

theorem validate_sampleValidImage :
    validateBldrBootParams (loadBootParams sampleValidImage sampleLoadParams)
      sampleValidImage.length = 0 := by
  rw [loadBootParams_sampleValidImage, sampleValidImage_length]
  decide

theorem load_sampleValidImage_status :
    (load sampleValidImage sampleLoadParams).bios_status =
      BIOS_LOAD_STATUS_SUCCESS := by
  have hg : ¬ (bios_check_size sampleValidImage.length ≠ 0) := by
    rw [sampleValidImage_length]
    decide
  have hv : ¬ (validateBldrBootParams
      (loadBootParams sampleValidImage sampleLoadParams)
      sampleValidImage.length ≠ 0) := by
    simp [validate_sampleValidImage]
  rw [load, if_neg hg, if_neg hv]

theorem loadBootParams_zeroImage :
    loadBootParams (List.replicate 0x40000 0) sampleLoadParams =
      emptyBootParams := by
  rw [loadBootParams, loadDecryptedImage_plain _ _ rfl rfl]
  simp only [List.length_replicate]
  rw [extract_replicate]
  rw [show min BOOT_PARAMS_SIZE (0x40000 - (bldrOffset 0x40000 + BOOT_PARAMS_OFF)) =
    28 from by decide]
  decide

theorem validate_zeroImage :
    validateBldrBootParams
      (loadBootParams (List.replicate 0x40000 0) sampleLoadParams)
      (List.replicate (0x40000 : Nat) (0 : Nat)).length ≠ 0 := by
  rw [loadBootParams_zeroImage]
  simp only [List.length_replicate]
  decide

/-! ## Claim theorems -/

/-- C2 counterexample: the claim places the 2BL block at
top − MCPX_BLOCK_SIZE − 0x2A00 − 0x6000 (0xF7400 for a 1 MiB image), but
the source constant `BLDR_REAL_BASE = 0xFFFFFFFF − MCPX_BLOCK_SIZE −
BLDR_BLOCK_SIZE + 1` puts the 2BL block at top − MCPX_BLOCK_SIZE −
0x6000 = 0xF9E00, so the claimed layout is false at size 0x100000. -/
theorem layout_claim_counterexample :
    ¬ ((getOffsets 0x100000).mcpx = 0x100000 - MCPX_BLOCK_SIZE ∧
      (getOffsets 0x100000).preldr = 0x100000 - MCPX_BLOCK_SIZE - 0x2A00 ∧
      (getOffsets 0x100000).bldr =
        0x100000 - MCPX_BLOCK_SIZE - 0x2A00 - 0x6000) := by
  decide

/-- C2 (amended): for every accepted image size the resolver places the
MCPX block at top − MCPX_BLOCK_SIZE, the preldr block at
top − MCPX_BLOCK_SIZE − 0x2A00, and the 2BL block at
top − MCPX_BLOCK_SIZE − 0x6000; the 2BL and preldr blocks both end at the
MCPX base, so the preldr block overlays the top 0x2A00 bytes of the 2BL
block (for a 1 MiB image: preldr at 0xFD400 and 2BL at 0xF9E00). -/
theorem layout_resolution (size : Nat) (h : bios_check_size size = 0) :
    (getOffsets size).mcpx = size - MCPX_BLOCK_SIZE ∧
    (getOffsets size).preldr = size - MCPX_BLOCK_SIZE - PRELDR_BLOCK_SIZE ∧
    (getOffsets size).bldr = size - MCPX_BLOCK_SIZE - BLDR_BLOCK_SIZE ∧
    (getOffsets size).bldr + BLDR_BLOCK_SIZE = (getOffsets size).mcpx ∧
    (getOffsets size).preldr + PRELDR_BLOCK_SIZE = (getOffsets size).mcpx ∧
    (getOffsets size).bldr + (BLDR_BLOCK_SIZE - PRELDR_BLOCK_SIZE) =
      (getOffsets size).preldr ∧
    (getOffsets 0x100000).preldr = 0xFD400 ∧
    (getOffsets 0x100000).bldr = 0xF9E00 := by
  have hs : size = 0x40000 ∨ size = 0x80000 ∨ size = 0x100000 := by
    by_contra hc
    simp [bios_check_size, hc] at h
  rcases hs with h | h | h <;> subst h <;> decide

/-- Witness for the amended C2 theorem at the 1 MiB size. -/
theorem layout_resolution_witness :
    bios_check_size 0x100000 = 0 ∧ (getOffsets 0x100000).bldr = 0xF9E00 :=
  ⟨by decide, (layout_resolution 0x100000 (by decide)).2.2.2.2.2.2.2⟩

/-- C3: `load` reports the FAILED status exactly when the input length is
not one of 256 KiB, 512 KiB or 1 MiB. -/
theorem load_size_gating (buff : List Nat) (p : BIOS_LOAD_PARAMS) :
    (load buff p).bios_status = BIOS_LOAD_STATUS_FAILED ↔
      ¬ (buff.length = 0x40000 ∨ buff.length = 0x80000 ∨
        buff.length = 0x100000) := by
  by_cases h : buff.length = 0x40000 ∨ buff.length = 0x80000 ∨
      buff.length = 0x100000
  · have hc : bios_check_size buff.length = 0 := by
      simp [bios_check_size, h]
    rw [load, if_neg (by simp [hc])]
    split_ifs
    · simp [failedDecode, BIOS_LOAD_STATUS_INVALID_BLDR,
        BIOS_LOAD_STATUS_FAILED, h]
    · simp [BIOS_LOAD_STATUS_SUCCESS, BIOS_LOAD_STATUS_FAILED, h]
  · have hc : bios_check_size buff.length = 1 := by
      simp [bios_check_size, h]
    rw [load, if_pos (by simp [hc])]
    simp [failedDecode, h]

/-- C4: the derived 2BL key is SHA-1(SHA-1(sbk ‖ nonce) ‖ nonce), is
exactly 20 bytes long, and is a deterministic function of its inputs. -/
theorem preldrCreateKey_spec (sbk nonce : List Nat) :
    preldrCreateKey sbk nonce = sha1 (sha1 (sbk ++ nonce) ++ nonce) ∧
    (preldrCreateKey sbk nonce).length = 20 ∧
    (∀ sbk2 nonce2, sbk2 = sbk → nonce2 = nonce →
      preldrCreateKey sbk2 nonce2 = preldrCreateKey sbk nonce) := by
  refine ⟨rfl, ?_, ?_⟩
  · rw [length_preldrCreateKey]
    rfl
  · intro sbk2 nonce2 h1 h2
    rw [h1, h2]

/-- Witness for C4 at a concrete secret boot key and nonce. -/
theorem preldrCreateKey_spec_witness :
    (preldrCreateKey [1] [2]).length = 20 ∧
      preldrCreateKey [1] [2] = preldrCreateKey [1] [2] :=
  ⟨(preldrCreateKey_spec [1] [2]).2.1,
    (preldrCreateKey_spec [1] [2]).2.2 [1] [2] rfl rfl⟩

/-- C5: a zero jump offset at the start of the preldr block, or a jump
target outside the preldr code region, makes the preldr decoder return
`NOT_FOUND` without mutating the image; an in-range jump whose derived
pointer and function blocks overflow the code region does not proceed
(it returns `ERROR`), also without mutating the image. -/
theorem preldr_detection (img : List Nat) (p : BIOS_LOAD_PARAMS) :
    (preldrJmpOffset img = 0 →
      preldrValidateAndDecryptBldr img p = (PRELDR_STATUS_NOT_FOUND, img)) ∧
    (PRELDR_REAL_END ≤ PRELDR_REAL_BASE + preldrJmpOffset img →
      preldrValidateAndDecryptBldr img p = (PRELDR_STATUS_NOT_FOUND, img)) ∧
    (p.mcpx_sbkey.length ≠ 0 →
      preldrJmpOffset img ≠ 0 →
      PRELDR_REAL_BASE + preldrJmpOffset img < PRELDR_REAL_END →
      PRELDR_REAL_END < align16 (PRELDR_REAL_BASE + preldrJmpOffset img +
        PRELDR_PTR_BLOCK_SIZE) + PRELDR_FUNC_BLOCK_SIZE →
      preldrValidateAndDecryptBldr img p = (PRELDR_STATUS_ERROR, img)) := by
  refine ⟨?_, ?_, ?_⟩
  · intro h
    rw [preldrValidateAndDecryptBldr]
    split_ifs
    all_goals first | rfl | omega
  · intro h
    rw [preldrValidateAndDecryptBldr]
    split_ifs
    all_goals first | rfl | omega
  · intro h0 h1 h2 h3
    rw [preldrValidateAndDecryptBldr]
    rw [if_neg (by omega), if_neg h1, if_neg (by omega), if_pos h3]

/-- Witness for C5: the empty image has jump offset zero and is reported
`NOT_FOUND` unchanged; a four-byte image with jump offset 0x2879 reaches
the pointer-block bound check and is reported `ERROR` unchanged. -/
theorem preldr_detection_witness :
    preldrValidateAndDecryptBldr [] sampleLoadParams =
      (PRELDR_STATUS_NOT_FOUND, []) ∧
    preldrValidateAndDecryptBldr [121, 40, 0, 0] preldrSampleParams =
      (PRELDR_STATUS_ERROR, [121, 40, 0, 0]) :=
  ⟨(preldr_detection [] sampleLoadParams).1 (by decide),
    (preldr_detection [121, 40, 0, 0] preldrSampleParams).2.2 (by decide)
      (by decide) (by decide) (by decide)⟩

/-! ## Lemmas: the sample preldr images -/

theorem length_preldrPlain {sig : List Nat} (hs : sig.length = 4) :
    (preldrPlain sig).length = 0x6200 := by
  have h1 : (0x35E4 : Nat) + sig.length ≤
      (List.replicate 0x6200 (0 : Nat)).length := by
    simp only [List.length_replicate, hs]
    omega
  have h2 : (writeAt (List.replicate 0x6200 (0 : Nat)) 0x35E4 sig).length =
      0x6200 := by
    simp only [length_writeAt h1, List.length_replicate]
  have h3 : (0x3600 : Nat) + ([1, 0, 0, 0] : List Nat).length ≤
      (writeAt (List.replicate 0x6200 (0 : Nat)) 0x35E4 sig).length := by
    rw [h2]
    simp only [List.length_cons, List.length_nil]
    omega
  simp only [preldrPlain, length_writeAt h3, h2]

theorem preldrPlain_fit {sig : List Nat} (hs : sig.length = 4) :
    (0 : Nat) + 0x3600 ≤ (preldrPlain sig).length := by
  rw [length_preldrPlain hs]
  omega

theorem length_preldrImg {sig : List Nat} (hs : sig.length = 4) :
    (preldrImg sig).length = 0x6200 := by
  rw [preldrImg, length_symmetricEncDecRegion _ (preldrPlain_fit hs),
    length_preldrPlain hs]

theorem preldrBase_fit {sig : List Nat} (hs : sig.length = 4) :
    (0x35E4 : Nat) + sig.length ≤ (List.replicate 0x6200 (0 : Nat)).length := by
  simp only [List.length_replicate, hs]
  omega

theorem preldrPlainInner_length {sig : List Nat} (hs : sig.length = 4) :
    (writeAt (List.replicate 0x6200 (0 : Nat)) 0x35E4 sig).length = 0x6200 := by
  simp only [length_writeAt (preldrBase_fit hs), List.length_replicate]

theorem preldrPlainInner_fit {sig : List Nat} (hs : sig.length = 4) :
    (0x3600 : Nat) + ([1, 0, 0, 0] : List Nat).length ≤
      (writeAt (List.replicate 0x6200 (0 : Nat)) 0x35E4 sig).length := by
  rw [preldrPlainInner_length hs]
  simp only [List.length_cons, List.length_nil]
  omega

theorem extract_preldrPlain_high {sig : List Nat} (hs : sig.length = 4)
    (off len : Nat) (h1 : 0x3604 ≤ off)
    (h2 : off + len ≤ 0x6200) :
    extract (preldrPlain sig) off len = List.replicate len 0 := by
  rw [preldrPlain]
  rw [extract_writeAt_disjoint (preldrPlainInner_fit hs)
    (Or.inr (by simp only [List.length_cons, List.length_nil]; omega))]
  rw [extract_writeAt_disjoint (preldrBase_fit hs) (Or.inr (by omega))]
  rw [extract_replicate]
  congr 1
  omega

theorem extract_preldrImg_high {sig : List Nat} (hs : sig.length = 4)
    (off len : Nat) (h1 : 0x3600 ≤ off) (h2 : off + len ≤ 0x6200) :
    extract (preldrImg sig) off len = extract (preldrPlain sig) off len := by
  rw [preldrImg, extract_symmetricEncDecRegion_disjoint _
    (preldrPlain_fit hs) (Or.inr (by omega))]

theorem preldrJmpOffset_preldrImg {sig : List Nat} (hs : sig.length = 4) :
    preldrJmpOffset (preldrImg sig) = 1 := by
  rw [preldrJmpOffset, length_preldrImg hs]
  rw [show preldrOffset 0x6200 = 0x3600 from by decide]
  rw [extract_preldrImg_high hs _ _ (by omega) (by omega)]
  rw [preldrPlain]
  rw [extract_writeAt_self (preldrPlainInner_fit hs)
    (show ([1, 0, 0, 0] : List Nat).length = 4 from rfl)]
  decide

theorem preldrNonce_preldrImg {sig : List Nat} (hs : sig.length = 4) :
    preldrNonce (preldrImg sig) = List.replicate 16 0 := by
  rw [preldrNonce, length_preldrImg hs]
  rw [show preldrParamsOffset 0x6200 = 0x5E80 from by decide]
  rw [show PRELDR_NONCE_SIZE = 16 from rfl]
  rw [extract_preldrImg_high hs _ _ (by omega) (by omega)]
  exact extract_preldrPlain_high hs _ _ (by omega) (by omega)

theorem decrypt_preldrImg {sig : List Nat} (hs : sig.length = 4) :
    symmetricEncDecBldr (preldrImg sig) 0x6200 preldrSampleKey =
      preldrPlain sig := by
  rw [symmetricEncDecBldr, show bldrOffset 0x6200 = 0 from by decide,
    show BLDR_CODE_SIZE = 0x3600 from by decide, preldrImg]
  exact symmetricEncDecRegion_involution _ (preldrPlain_fit hs)

theorem sigword_preldrPlain {sig : List Nat} (hs : sig.length = 4) :
    extract (preldrPlain sig) 0x35E4 4 = sig := by
  rw [preldrPlain]
  rw [extract_writeAt_disjoint (preldrPlainInner_fit hs) (Or.inl (by omega))]
  exact extract_writeAt_self (preldrBase_fit hs) hs

/-- C6: when the preldr decoder decrypts the 2BL with the derived key and
the boot-params signature does not match, it re-encrypts the 2BL — the
image is restored to its prior bytes — and returns `FOUND`; on a match it
returns `BLDR_DECRYPTED` and leaves the 2BL plaintext. -/
theorem preldr_found_atomicity (img : List Nat) (p : BIOS_LOAD_PARAMS)
    (key : List Nat)
    (hkey : preldrCreateKey p.mcpx_sbkey (preldrNonce img) = key)
    (h0 : p.mcpx_sbkey.length ≠ 0)
    (h1 : preldrJmpOffset img ≠ 0)
    (h2 : PRELDR_REAL_BASE + preldrJmpOffset img < PRELDR_REAL_END)
    (h3 : align16 (PRELDR_REAL_BASE + preldrJmpOffset img +
      PRELDR_PTR_BLOCK_SIZE) + PRELDR_FUNC_BLOCK_SIZE ≤ PRELDR_REAL_END)
    (hfit : bldrOffset img.length + BLDR_CODE_SIZE ≤ img.length) :
    (le32 (extract (symmetricEncDecBldr img img.length key)
        (bldrOffset img.length + BOOT_PARAMS_OFF) 4) ≠ BOOT_SIGNATURE →
      preldrValidateAndDecryptBldr img p = (PRELDR_STATUS_FOUND, img)) ∧
    (le32 (extract (symmetricEncDecBldr img img.length key)
        (bldrOffset img.length + BOOT_PARAMS_OFF) 4) = BOOT_SIGNATURE →
      preldrValidateAndDecryptBldr img p =
        (PRELDR_STATUS_BLDR_DECRYPTED,
          symmetricEncDecBldr img img.length key)) := by
  subst hkey
  constructor <;> intro hsig
  · simp only [preldrValidateAndDecryptBldr]
    rw [if_neg h0, if_neg h1, if_neg (by omega), if_neg (by omega),
      if_neg hsig]
    rw [symmetricEncDecBldr, symmetricEncDecBldr,
      symmetricEncDecRegion_involution _ hfit]
  · simp only [preldrValidateAndDecryptBldr]
    rw [if_neg h0, if_neg h1, if_neg (by omega), if_neg (by omega),
      if_pos hsig]

/-- Witness for C6: a concrete encrypted sample image with a matching
signature is decrypted in place (`BLDR_DECRYPTED`), and the same image
built over a zero signature word is restored byte-identically and
reported `FOUND`. -/
theorem preldr_found_atomicity_witness :
    preldrValidateAndDecryptBldr (preldrImg (le32Bytes BOOT_SIGNATURE))
        preldrSampleParams =
      (PRELDR_STATUS_BLDR_DECRYPTED,
        symmetricEncDecBldr (preldrImg (le32Bytes BOOT_SIGNATURE))
          (preldrImg (le32Bytes BOOT_SIGNATURE)).length preldrSampleKey) ∧
    preldrValidateAndDecryptBldr (preldrImg (le32Bytes 0))
        preldrSampleParams =
      (PRELDR_STATUS_FOUND, preldrImg (le32Bytes 0)) := by
  have hs1 : (le32Bytes BOOT_SIGNATURE).length = 4 := length_le32Bytes _
  have hs0 : (le32Bytes 0).length = 4 := length_le32Bytes _
  have hoff : ∀ sig : List Nat, sig.length = 4 →
      bldrOffset (preldrImg sig).length + BOOT_PARAMS_OFF = 0x35E4 := by
    intro sig hs
    rw [length_preldrImg hs]
    decide
  have hdec : ∀ sig : List Nat, sig.length = 4 →
      le32 (extract (symmetricEncDecBldr (preldrImg sig)
          (preldrImg sig).length preldrSampleKey)
        (bldrOffset (preldrImg sig).length + BOOT_PARAMS_OFF) 4) =
        le32 sig := by
    intro sig hs
    rw [hoff sig hs, length_preldrImg hs, decrypt_preldrImg hs,
      sigword_preldrPlain hs]
  have hkey : ∀ sig : List Nat, sig.length = 4 →
      preldrCreateKey preldrSampleParams.mcpx_sbkey
        (preldrNonce (preldrImg sig)) = preldrSampleKey := by
    intro sig hs
    rw [preldrNonce_preldrImg hs]
    rfl
  constructor
  · exact (preldr_found_atomicity (preldrImg (le32Bytes BOOT_SIGNATURE))
      preldrSampleParams preldrSampleKey (hkey _ hs1) (by decide)
      (by rw [preldrJmpOffset_preldrImg hs1]; decide)
      (by rw [preldrJmpOffset_preldrImg hs1]; decide)
      (by rw [preldrJmpOffset_preldrImg hs1]; decide)
      (by rw [length_preldrImg hs1]; decide)).2
      (by rw [hdec _ hs1, le32_le32Bytes (by decide)])
  · exact (preldr_found_atomicity (preldrImg (le32Bytes 0))
      preldrSampleParams preldrSampleKey (hkey _ hs0) (by decide)
      (by rw [preldrJmpOffset_preldrImg hs0]; decide)
      (by rw [preldrJmpOffset_preldrImg hs0]; decide)
      (by rw [preldrJmpOffset_preldrImg hs0]; decide)
      (by rw [length_preldrImg hs0]; decide)).1
      (by rw [hdec _ hs0, le32_le32Bytes (by decide)]; decide)

/-- C7: `validateBldrBootParams` rejects a decrypted 2BL exactly when the
signature differs from 2018801994, or a size is zero, or the sizes exceed
the available space, or the declared ROM size is not an allowed size; on
rejection `load` reports `INVALID_BLDR` with the boot params still
readable, and a successfully decoded 2BL always has boot-params signature
2018801994. -/
theorem bldr_boot_params_validation (bp : BOOT_PARAMS) (size : Nat)
    (buff : List Nat) (p : BIOS_LOAD_PARAMS) :
    (validateBldrBootParams bp size ≠ 0 ↔
      (bp.signature ≠ BOOT_SIGNATURE ∨ bp.bldr_size = 0 ∨
        bp.krnl_data_size = 0 ∨
        availableSpace size < bp.bldr_size + bp.krnl_data_size ∨
        bios_check_size bp.romsize ≠ 0)) ∧
    (bios_check_size buff.length = 0 →
      validateBldrBootParams (loadBootParams buff p) buff.length ≠ 0 →
      (load buff p).bios_status = BIOS_LOAD_STATUS_INVALID_BLDR ∧
      (load buff p).boot_params = loadBootParams buff p) ∧
    ((load buff p).bios_status = BIOS_LOAD_STATUS_SUCCESS →
      (load buff p).boot_params.signature = BOOT_SIGNATURE) := by
  refine ⟨?_, ?_, ?_⟩
  · rw [validateBldrBootParams]
    split_ifs with h1 h2 h3 h4 h5 <;> simp_all
  · intro h1 h2
    rw [load, if_neg (by simp [h1]), if_pos h2]
    exact ⟨rfl, rfl⟩
  · intro h
    by_cases hg : bios_check_size buff.length ≠ 0
    · rw [load, if_pos hg] at h
      simp [failedDecode, BIOS_LOAD_STATUS_FAILED, BIOS_LOAD_STATUS_SUCCESS] at h
    · by_cases hv : validateBldrBootParams (loadBootParams buff p)
          buff.length ≠ 0
      · rw [load, if_neg hg, if_pos hv] at h
        simp [BIOS_LOAD_STATUS_INVALID_BLDR, BIOS_LOAD_STATUS_SUCCESS] at h
      · rw [load, if_neg hg, if_neg hv]
        show (loadBootParams buff p).signature = BOOT_SIGNATURE
        by_contra hbad
        apply hv
        rw [validateBldrBootParams, if_pos hbad]
        exact Nat.one_ne_zero

/-- Witness for C7: the all-zero 256 KiB image is rejected as
`INVALID_BLDR` with its (zero) boot params readable, and the valid sample
image decodes successfully with the boot signature anchored. -/
theorem bldr_boot_params_validation_witness :
    ((load (List.replicate 0x40000 0) sampleLoadParams).bios_status =
        BIOS_LOAD_STATUS_INVALID_BLDR ∧
      (load (List.replicate 0x40000 0) sampleLoadParams).boot_params =
        loadBootParams (List.replicate 0x40000 0) sampleLoadParams) ∧
    (load sampleValidImage sampleLoadParams).boot_params.signature =
      BOOT_SIGNATURE := by
  constructor
  · exact (bldr_boot_params_validation emptyBootParams 0
      (List.replicate 0x40000 0) sampleLoadParams).2.1
      (by simp only [List.length_replicate]; decide) validate_zeroImage
  · exact (bldr_boot_params_validation emptyBootParams 0 sampleValidImage
      sampleLoadParams).2.2 load_sampleValidImage_status

/-- C8: when `KD_DELAY_FLAG` is set in the boot-params kernel-key word,
kernel decryption uses the external `params.kernel_key` and the in-image
key is ignored (the result does not depend on it); when clear, the
in-image key is used. -/
theorem kernel_key_selection (bp : BOOT_PARAMS) (p : BIOS_LOAD_PARAMS)
    (k1 k2 dk img : List Nat) :
    (bp.kernel_key_word &&& KD_DELAY_FLAG ≠ 0 →
      kernelEncDecKey bp p k1 = p.kernel_key ∧
      symmetricEncDecKernel img bp p k1 dk =
        symmetricEncDecKernel img bp p k2 dk) ∧
    (bp.kernel_key_word &&& KD_DELAY_FLAG = 0 →
      kernelEncDecKey bp p k1 = k1) := by
  constructor
  · intro h
    constructor
    · simp [kernelEncDecKey, h]
    · simp [symmetricEncDecKernel, kernelEncDecKey, h]
  · intro h
    simp [kernelEncDecKey, h]

/-- Witness for C8: with the delay flag set the external key is selected;
with it clear the in-image key is selected. -/
theorem kernel_key_selection_witness :
    kernelEncDecKey sampleBootParamsDelay sampleLoadParams [5] =
      sampleLoadParams.kernel_key ∧
    kernelEncDecKey sampleBootParamsNoDelay sampleLoadParams [5] = [5] :=
  ⟨((kernel_key_selection sampleBootParamsDelay sampleLoadParams [5] [6] []
      []).1 (by decide)).1,
    (kernel_key_selection sampleBootParamsNoDelay sampleLoadParams [5] [6] []
      []).2 (by decide)⟩

/-- C9: `unload` zeroes every byte of the held 2BL-key and kernel-key
material and frees the owned buffer; the destructor is exactly `unload`
(src/inc/Bios.h line 163), and a failed `load` leaves the handle in the
zeroed unloaded state. -/
theorem unload_zeroization (b : BiosHandle) (buff : List Nat)
    (p : BIOS_LOAD_PARAMS) :
    handleZeroed (unload b) ∧
    biosDestructor b = unload b ∧
    ((load buff p).bios_status = BIOS_LOAD_STATUS_FAILED →
      handleZeroed (loadHandle buff p)) := by
  have hz : ∀ c : BiosHandle, handleZeroed (unload c) := by
    intro c
    refine ⟨?_, ?_, rfl⟩
    all_goals intro x hx
    all_goals exact List.eq_of_mem_replicate hx
  refine ⟨hz b, rfl, ?_⟩
  intro h
  rw [loadHandle, if_pos h]
  exact hz _

/-- Witness for C9 at a concrete handle and a rejected (empty) buffer. -/
theorem unload_zeroization_witness :
    handleZeroed (loadHandle [] sampleLoadParams) :=
  (unload_zeroization ⟨none, [3], [4]⟩ [] sampleLoadParams).2.2 (by decide)

/-- C10: every decoder step preserves a cleared (plaintext)
encryption-state flag for both the 2BL and the kernel, and invoking a
decrypt step on an entity already plaintext returns the state unchanged
with the `AlreadyPlaintext` soft error instead of re-applying the
cipher. -/
theorem encryption_state_monotonic (p : BIOS_LOAD_PARAMS) (bp : BOOT_PARAMS)
    (s : DecoderStep) (st : LoadState) :
    (st.bldr_encryption_state = false →
      (applyDecoderStep p bp s st).1.bldr_encryption_state = false) ∧
    (st.kernel_encryption_state = false →
      (applyDecoderStep p bp s st).1.kernel_encryption_state = false) ∧
    (st.bldr_encryption_state = false →
      applyDecoderStep p bp DecoderStep.bldrDecryptStep st =
        (st, SOFT_ERROR_ALREADY_PLAINTEXT)) ∧
    (st.kernel_encryption_state = false →
      applyDecoderStep p bp DecoderStep.kernelDecryptStep st =
        (st, SOFT_ERROR_ALREADY_PLAINTEXT)) := by
  refine ⟨?_, ?_, ?_, ?_⟩
  · intro h
    cases s <;> simp [applyDecoderStep, h] <;> split <;> simp [h]
  · intro h
    cases s <;> simp [applyDecoderStep, h] <;> split <;> simp [h]
  · intro h
    simp [applyDecoderStep, h]
  · intro h
    simp [applyDecoderStep, h]

/-- Witness for C10 at a concrete plaintext state: the guarded decrypt
refuses with the soft error and the flag stays cleared across a step. -/
theorem encryption_state_monotonic_witness :
    applyDecoderStep sampleLoadParams sampleBootParamsNoDelay
        DecoderStep.bldrDecryptStep ⟨[], false, false⟩ =
      (⟨[], false, false⟩, SOFT_ERROR_ALREADY_PLAINTEXT) ∧
    (applyDecoderStep sampleLoadParams sampleBootParamsNoDelay
        DecoderStep.decompressStep ⟨[], false, false⟩).1.bldr_encryption_state =
      false :=
  ⟨(encryption_state_monotonic sampleLoadParams sampleBootParamsNoDelay
      DecoderStep.bldrDecryptStep ⟨[], false, false⟩).2.2.1 rfl,
    (encryption_state_monotonic sampleLoadParams sampleBootParamsNoDelay
      DecoderStep.decompressStep ⟨[], false, false⟩).1 rfl⟩

end XboxBiosTool
